import Mathlib

/-!
A shallow embedding of the in-memory document store (`src/backend/database_old.py`,
class `InMemoryCollection`) and of the activities HTTP handlers
(`src/backend/routers/activities.py`).

Python dictionaries are modelled as association lists (Python dicts preserve
insertion order; lookups take the first occurrence, and the stores modelled here
never carry duplicate keys).  Python runtime values appearing in documents,
queries and responses are modelled by the inductive type `Value`.

Crash containment: the source, being dynamically typed, raises exceptions on a
few degenerate inputs (indexing `[0]` into an empty `$in` list, appending to a
non-list field, a missing `participants` key).  The model is total; each such
spot is contained as the nearest non-raising behaviour and marked by a comment.
No theorem below rests on a contained case: the hypotheses (or the concrete
inputs) of every claim keep the evaluation inside the faithful fragment.
-/

inductive Value where
  | str (s : String)
  | int (n : Int)
  | bool (b : Bool)
  | list (l : List Value)
  | dict (d : List (String × Value))

mutual

/-- Structural equality on `Value`, mirroring Python `==` on the values the
program manipulates (strings, ints, bools, lists, dicts).  Note: Python dict
equality ignores key order while this association-list model is order
sensitive; the handlers never issue dict-valued equality constraints, and both
scan paths of `find` use the same predicate, so no claim is affected. -/
def vbeq : Value → Value → Bool
  | .str a, .str b => a == b
  | .int a, .int b => a == b
  | .bool a, .bool b => a == b
  | .list a, .list b => lbeq a b
  | .dict a, .dict b => dbeq a b
  | _, _ => false
termination_by structural a => a

def lbeq : List Value → List Value → Bool
  | [], [] => true
  | x :: xs, y :: ys => vbeq x y && lbeq xs ys
  | _, _ => false
termination_by structural a => a

def dbeq : List (String × Value) → List (String × Value) → Bool
  | [], [] => true
  | (k, v) :: xs, (k2, v2) :: ys => k == k2 && vbeq v v2 && dbeq xs ys
  | _, _ => false
termination_by structural a => a

end

mutual

theorem vbeq_iff : ∀ a b : Value, vbeq a b = true ↔ a = b
  | .str a, .str b => by simp [vbeq]
  | .int a, .int b => by simp [vbeq]
  | .bool a, .bool b => by simp [vbeq]
  | .list a, .list b => by simp [vbeq, lbeq_iff a b]
  | .dict a, .dict b => by simp [vbeq, dbeq_iff a b]
  | .str _, .int _ => by simp [vbeq]
  | .str _, .bool _ => by simp [vbeq]
  | .str _, .list _ => by simp [vbeq]
  | .str _, .dict _ => by simp [vbeq]
  | .int _, .str _ => by simp [vbeq]
  | .int _, .bool _ => by simp [vbeq]
  | .int _, .list _ => by simp [vbeq]
  | .int _, .dict _ => by simp [vbeq]
  | .bool _, .str _ => by simp [vbeq]
  | .bool _, .int _ => by simp [vbeq]
  | .bool _, .list _ => by simp [vbeq]
  | .bool _, .dict _ => by simp [vbeq]
  | .list _, .str _ => by simp [vbeq]
  | .list _, .int _ => by simp [vbeq]
  | .list _, .bool _ => by simp [vbeq]
  | .list _, .dict _ => by simp [vbeq]
  | .dict _, .str _ => by simp [vbeq]
  | .dict _, .int _ => by simp [vbeq]
  | .dict _, .bool _ => by simp [vbeq]
  | .dict _, .list _ => by simp [vbeq]

theorem lbeq_iff : ∀ a b : List Value, lbeq a b = true ↔ a = b
  | [], [] => by simp [lbeq]
  | x :: xs, y :: ys => by simp [lbeq, vbeq_iff x y, lbeq_iff xs ys]
  | [], _ :: _ => by simp [lbeq]
  | _ :: _, [] => by simp [lbeq]

theorem dbeq_iff : ∀ a b : List (String × Value), dbeq a b = true ↔ a = b
  | [], [] => by simp [dbeq]
  | (k, v) :: xs, (k2, v2) :: ys => by
      simp [dbeq, vbeq_iff v v2, dbeq_iff xs ys, and_assoc]
  | [], _ :: _ => by simp [dbeq]
  | _ :: _, [] => by simp [dbeq]

end

instance : DecidableEq Value := fun a b => decidable_of_iff (vbeq a b = true) (vbeq_iff a b)

theorem vbeq_refl (a : Value) : vbeq a a = true := (vbeq_iff a a).mpr rfl

/-- A Python dict with string keys, as an insertion-ordered association list. -/
abbrev Doc := List (String × Value)

/-- `activities_data` / `teachers_data`: key (document id) → document. -/
abbrev Store := List (String × Doc)

/-- A query / update argument: a Python dict of string keys to values. -/
abbrev Query := List (String × Value)

/-- `_day_index`: day → list of activity names (dict keys are the day values). -/
abbrev DayIndex := List (Value × List String)

/-- Dict lookup by string key (first occurrence, as in a Python dict). -/
def lookupS {α : Type} (l : List (String × α)) (k : String) : Option α :=
  (l.find? fun p => p.1 == k).map (·.2)

/-- Dict lookup keyed by a `Value` (the day index), using Python `==`. -/
def lookupV {α : Type} (l : List (Value × α)) (k : Value) : Option α :=
  (l.find? fun p => vbeq p.1 k).map (·.2)

/-- Python `v in l` for a list `l`. -/
def velem (v : Value) (l : List Value) : Bool :=
  l.any fun x => vbeq v x

/-- The dotted-path traversal loop of `_matches_query`:
`for k in keys: if isinstance(current, dict) and k in current: current = current[k]
else: return False`. -/
def getPath : Value → List String → Option Value
  | v, [] => some v
  | v, k :: ks =>
    match v with
    | .dict d =>
      match lookupS d k with
      | some w => getPath w ks
      | none => none
    | _ => none

/-- Lexicographic comparison of two character lists by Unicode code point,
Python's `<` on strings. -/
def charsLt : List Char → List Char → Bool
  | [], [] => false
  | [], _ :: _ => true
  | _ :: _, [] => false
  | a :: as, b :: bs =>
    if a.toNat < b.toNat then true
    else if b.toNat < a.toNat then false
    else charsLt as bs

/-- Ordinal comparison `current < bound` used by `$gte`/`$lte`
(zero-padded time strings compare lexicographically).  The source raises
`TypeError` on cross-type comparison; contained as `false`, unexercised. -/
def vlt : Value → Value → Bool
  | .str a, .str b => charsLt a.data b.data
  | .int a, .int b => decide (a < b)
  | _, _ => false

/-- Python `"." in key`, computed over the key's characters. -/
def containsDot (s : String) : Bool :=
  s.data.any fun c => c == '.'

def splitOnDotAux : List Char → List Char → List String
  | [], acc => [String.mk acc.reverse]
  | c :: cs, acc =>
    if c == '.' then String.mk acc.reverse :: splitOnDotAux cs []
    else splitOnDotAux cs (c :: acc)

/-- Python `key.split(".")`, computed over the key's characters:
`"a.b" ↦ ["a", "b"]`, a key without dots maps to the one-element list. -/
def splitOnDot (s : String) : List String :=
  splitOnDotAux s.data []

/-- The operator dispatch of `_matches_query` on a dotted key whose traversal
produced `current`: `$in`, then `$gte`, then `$lte`; a dict value carrying none
of the three operators constrains nothing (the source falls through); a
non-dict value is compared by equality.
`$in` requires the document field to be a list; a non-list `$in` payload (the
source would iterate it or raise) is contained as a non-match, unexercised. -/
def matchOp (current : Value) (value : Value) : Bool :=
  match value with
  | .dict d =>
    match lookupS d "$in" with
    | some w =>
      match current, w with
      | .list cur, .list items => items.any fun it => velem it cur
      | _, _ => false
    | none =>
      match lookupS d "$gte" with
      | some w => !(vlt current w)
      | none =>
        match lookupS d "$lte" with
        | some w => !(vlt w current)
        | none => true
  | _ => vbeq current value

/-- `InMemoryCollection._matches_query`.  A dotted key triggers nested
traversal plus operator dispatch; a plain key is checked by membership and
equality (`key not in doc or doc[key] != value`). -/
def matches_query (doc : Doc) (query : Query) : Bool :=
  query.all fun kv =>
    if containsDot kv.1 then
      match getPath (.dict doc) (splitOnDot kv.1) with
      | some current => matchOp current kv.2
      | none => false
    else
      match lookupS doc kv.1 with
      | some dv => vbeq dv kv.2
      | none => false

/-- `{"_id": k, **v}`: the id is placed first; if `v` itself carries an
`"_id"` key (never the case for this app's stores) its value wins, as for a
duplicate key in a Python dict literal. -/
def insertId (k : String) (v : Doc) : Doc :=
  ("_id", (lookupS v "_id").getD (Value.str k)) :: v.filter fun p => p.1 != "_id"

/-- The full-scan branch of `find` (lines 86-91 of the source): match every
document, in store order, against the whole query. -/
def fullScan (store : Store) (query : Query) : List Doc :=
  store.filterMap fun p =>
    if matches_query (insertId p.1 p.2) query then some (insertId p.1 p.2) else none

/-- `activity.get("schedule_details", {}).get("days", [])` as used by
`_build_indexes`.  A non-list `days` value (whose characters the source would
iterate) or a non-dict `schedule_details` is contained as the empty list;
no claim exercises those shapes. -/
def getDays (act : Doc) : List Value :=
  match lookupS act "schedule_details" with
  | some (.dict sd) =>
    match lookupS sd "days" with
    | some (.list l) => l
    | _ => []
  | _ => []

/-- One step of `_build_indexes`:
`if day not in _day_index: _day_index[day] = []` then
`_day_index[day].append(activity_name)`. -/
def indexInsert (idx : DayIndex) (day : Value) (name : String) : DayIndex :=
  if (lookupV idx day).isSome then
    idx.map fun p => if p.1 = day then (p.1, p.2 ++ [name]) else p
  else idx ++ [(day, [name])]

/-- `_build_indexes` (the `_day_index` part; `_time_index` is written but never
read by `find` and is not modelled). -/
def buildDayIndex (store : Store) : DayIndex :=
  store.foldl (fun idx p => (getDays p.2).foldl (fun j d => indexInsert j d p.1) idx) []

/-- `InMemoryCollection.find`.  Empty query: all documents tagged with their
key.  A query carrying `{"schedule_details.days": {"$in": [...]}}` takes the
index shortcut on the FIRST `$in` value when that day is an index key; each
candidate is re-verified against the full query, and a candidate whose stored
document is empty is skipped (`if activity and ...`, an empty dict being
falsy).  Otherwise, full scan.  The source raises `IndexError` on an empty
`$in` list; contained as a full scan, unexercised. -/
def find (store : Store) (idx : DayIndex) (query : Query) : List Doc :=
  match query with
  | [] => store.map fun p => insertId p.1 p.2
  | _ =>
    match lookupS query "schedule_details.days" with
    | some (.dict df) =>
      match lookupS df "$in" with
      | some (.list (day :: _)) =>
        match lookupV idx day with
        | some names =>
          names.filterMap fun name =>
            match lookupS store name with
            | some act =>
              if !act.isEmpty && matches_query (insertId name act) query then
                some (insertId name act)
              else none
            | none => none
        | none => fullScan store query
      | some (.list []) => fullScan store query
      | _ => fullScan store query
    | _ => fullScan store query

/-- `InMemoryCollection.find_one`: a single-field identity query
short-circuits to a direct key lookup; otherwise first result of `find`.
A non-string `_id` in the identity query can never equal a key of the
string-keyed store, hence `None`. -/
def find_one (store : Store) (idx : DayIndex) (query : Query) : Option Doc :=
  match query with
  | [("_id", v)] =>
    match v with
    | .str s => (lookupS store s).map (insertId s)
    | _ => none
  | _ => (find store idx query).head?

/-- `list.remove(value)`: drop the first element equal to the value. -/
def removeFirst : List Value → Value → List Value
  | [], _ => []
  | x :: xs, v => if vbeq v x then xs else x :: removeFirst xs v

theorem removeFirst_length_lt (l : List Value) (v : Value) :
    velem v l = true → (removeFirst l v).length < l.length := by
  induction l with
  | nil => simp [velem]
  | cons x xs ih =>
    intro h
    by_cases hx : vbeq v x = true
    · simp [removeFirst, hx]
    · simp only [velem, List.any_cons, Bool.or_eq_true] at h
      rcases h with h | h
      · exact absurd h hx
      · simpa [removeFirst, hx] using ih h

/-- The body of `while value in lst: lst.remove(value)`, run for at most
`fuel` iterations. -/
def removeAllFuel : Nat → List Value → Value → List Value
  | 0, l, _ => l
  | fuel + 1, l, v => if velem v l then removeAllFuel fuel (removeFirst l v) v else l

/-- `while value in lst: lst.remove(value)`.  Each iteration of the loop
shortens the list by one element, so `l.length` iterations always suffice;
the fuelled form is extensionally the source's loop
(`removeAll_eq_filter` below pins its meaning down). -/
def removeAll (l : List Value) (v : Value) : List Value :=
  removeAllFuel l.length l v

theorem removeFirst_filter (l : List Value) (v : Value) :
    (removeFirst l v).filter (fun x => !(vbeq v x)) = l.filter (fun x => !(vbeq v x)) := by
  induction l with
  | nil => rfl
  | cons x xs ih =>
    by_cases hx : vbeq v x = true
    · simp [removeFirst, hx]
    · simp [removeFirst, hx, ih]

theorem filter_eq_self_of_not_velem (l : List Value) (v : Value) (h : velem v l = false) :
    l.filter (fun x => !(vbeq v x)) = l := by
  rw [List.filter_eq_self]
  intro a ha
  simp only [velem, List.any_eq_true, not_exists] at h
  simp only [Bool.not_eq_true']
  by_contra hc
  rw [Bool.not_eq_false] at hc
  exact absurd (List.any_eq_true.mpr ⟨a, ha, hc⟩) (by simp [velem] at h ⊢; exact fun x hx => h x hx)

theorem removeAllFuel_eq_filter (v : Value) :
    ∀ (fuel : Nat) (l : List Value), l.length ≤ fuel →
      removeAllFuel fuel l v = l.filter (fun x => !(vbeq v x))
  | 0, l, h => by
    have : l = [] := List.eq_nil_of_length_eq_zero (Nat.le_zero.mp h)
    subst this; rfl
  | fuel + 1, l, h => by
    by_cases hv : velem v l = true
    · have hlt := removeFirst_length_lt l v hv
      have hle : (removeFirst l v).length ≤ fuel := by omega
      rw [removeAllFuel, if_pos hv, removeAllFuel_eq_filter v fuel _ hle,
        removeFirst_filter]
    · rw [removeAllFuel, if_neg hv,
        filter_eq_self_of_not_velem l v (Bool.not_eq_true _ ▸ hv)]

/-- The `$pull` loop removes exactly the elements equal to the target value,
preserving the order of the rest. -/
theorem removeAll_eq_filter (l : List Value) (v : Value) :
    removeAll l v = l.filter (fun x => !(vbeq v x)) :=
  removeAllFuel_eq_filter v l.length l (Nat.le_refl _)

/-- In-place assignment `d[field] = v` on an existing key (the dict position
is unchanged). -/
def setField (d : Doc) (field : String) (v : Value) : Doc :=
  d.map fun p => if p.1 = field then (p.1, v) else p

/-- In-place update of `self.data[k]` (unique store keys in a Python dict). -/
def mapEntry (store : Store) (k : String) (f : Doc → Doc) : Store :=
  store.map fun p => if p.1 = k then (p.1, f p.2) else p

/-- The `$push` body for one field: create the list field at the end of the
dict if absent, then append.  Appending to an existing non-list field raises
`AttributeError` in the source; contained as a no-op, unexercised. -/
def applyPush (d : Doc) (field : String) (v : Value) : Doc :=
  match lookupS d field with
  | none => d ++ [(field, Value.list [v])]
  | some (.list l) => setField d field (Value.list (l ++ [v]))
  | some _ => d

/-- The `$pull` body for one field: guarded by
`field in doc and isinstance(doc[field], list)`, then remove all occurrences. -/
def applyPull (d : Doc) (field : String) (v : Value) : Doc :=
  match lookupS d field with
  | some (.list l) => setField d field (Value.list (removeAll l v))
  | _ => d

/-- `UpdateResult` paired with the (mutated) store. -/
structure UpdateOutcome where
  modified_count : Nat
  store : Store

/-- `InMemoryCollection.update_one`: locate one document via `find_one`;
apply every `$push` field, then every `$pull` field, to the stored document;
report 0 (no match, store untouched) or 1.  A found document whose `_id` is
not a string key would make the source raise `KeyError`; contained as an
untouched store (still count 1), unreachable for stores whose documents carry
no `_id` field. -/
def update_one (store : Store) (idx : DayIndex) (query update : Query) : UpdateOutcome :=
  match find_one store idx query with
  | none => ⟨0, store⟩
  | some doc =>
    match lookupS doc "_id" with
    | some (.str docId) =>
      let store1 :=
        match lookupS update "$push" with
        | some (.dict pushes) =>
          mapEntry store docId fun d => pushes.foldl (fun d p => applyPush d p.1 p.2) d
        | _ => store
      let store2 :=
        match lookupS update "$pull" with
        | some (.dict pulls) =>
          mapEntry store1 docId fun d => pulls.foldl (fun d p => applyPull d p.1 p.2) d
        | _ => store1
      ⟨1, store2⟩
    | _ => ⟨1, store⟩

/-! ## HTTP handler layer (`src/backend/routers/activities.py`) -/

/-- The module-level `_cache`: cache key → materialized response payload. -/
abbrev Cache := List (String × Value)

/-- Python truthiness of an optional string parameter (`if day:`,
`if not teacher_username:`): `None` and the empty string are falsy. -/
def truthy : Option String → Bool
  | none => false
  | some s => !(s == "")

/-- `x or ''` on an optional string parameter. -/
def orEmpty : Option String → String
  | none => ""
  | some s => s

/-- `_generate_cache_key`: the literal parameter string
`day=...&start_time=...&end_time=...&page=...&page_size=...`.
The source returns the MD5 hex digest of this string; the digest is a
deterministic function of it and every claim depends only on key equality
(equal parameter strings give equal digests), so the model keys the cache by
the parameter string itself. -/
def generate_cache_key (day start_time end_time : Option String)
    (page page_size : Nat) : String :=
  "day=" ++ orEmpty day ++ "&start_time=" ++ orEmpty start_time ++
    "&end_time=" ++ orEmpty end_time ++ "&page=" ++ toString page ++
    "&page_size=" ++ toString page_size

/-- `_cache[key] = result`: overwrite in place if present, else append. -/
def cacheInsert (c : Cache) (k : String) (v : Value) : Cache :=
  if (lookupS c k).isSome then
    c.map fun p => if p.1 = k then (p.1, v) else p
  else c ++ [(k, v)]

/-- The query dict built by `get_activities` from the optional filters, in
insertion order: day membership, then start-time lower bound, then end-time
upper bound; a falsy (absent or empty) parameter contributes nothing. -/
def buildQuery (day start_time end_time : Option String) : Query :=
  (match day with
   | some d => if d == "" then [] else
       [("schedule_details.days", Value.dict [("$in", Value.list [Value.str d])])]
   | none => []) ++
  (match start_time with
   | some t => if t == "" then [] else
       [("schedule_details.start_time", Value.dict [("$gte", Value.str t)])]
   | none => []) ++
  (match end_time with
   | some t => if t == "" then [] else
       [("schedule_details.end_time", Value.dict [("$lte", Value.str t)])]
   | none => [])

/-- `activity.pop('_id')` followed by keeping the rest of the document.
`find` always places a string id first when store documents carry no `_id`
field of their own; the `""` default is never reached on such stores. -/
def popId (doc : Doc) : String × Doc :=
  ((match lookupS doc "_id" with
    | some (.str s) => s
    | _ => ""),
   doc.filter fun p => p.1 != "_id")

/-- Result of `get_activities`: the JSON payload plus the cache afterwards. -/
structure PageResult where
  resp : Value
  cache : Cache

/-- `get_activities`: serve from cache when the key is present; otherwise
build the filter query, materialize the full result list, slice it with
zero-based indices `[(page-1)*page_size : (page-1)*page_size + page_size]`,
and wrap the slice in the pagination envelope — unless the first page already
holds every result (`page == 1 and page_size >= total_count`), in which case
the flat activities mapping is returned.  The computed payload is cached.
The day index is passed explicitly (the source reads the module-level
`_day_index`). -/
def get_activities (store : Store) (idx : DayIndex) (cache : Cache)
    (day start_time end_time : Option String) (page page_size : Nat) : PageResult :=
  let key := generate_cache_key day start_time end_time page page_size
  match lookupS cache key with
  | some v => ⟨v, cache⟩
  | none =>
    let query := buildQuery day start_time end_time
    let allActs := (find store idx query).map popId
    let totalCount := allActs.length
    let startIdx := (page - 1) * page_size
    let paginated := (allActs.drop startIdx).take page_size
    let activities := Value.dict (paginated.map fun p => (p.1, Value.dict p.2))
    let result :=
      if page == 1 && decide (totalCount ≤ page_size) then activities
      else
        Value.dict [("activities", activities),
          ("pagination", Value.dict [
            ("page", Value.int page),
            ("page_size", Value.int page_size),
            ("total_count", Value.int totalCount),
            ("total_pages", Value.int (((totalCount + page_size - 1) / page_size : Nat))),
            ("has_next", Value.bool (decide (startIdx + page_size < totalCount))),
            ("has_previous", Value.bool (decide (1 < page)))])]
    ⟨result, cacheInsert cache key result⟩

/-- `email in activity["participants"]`.  A missing or non-list field would
make the source raise (`KeyError` / substring test on a string); contained as
the empty list — every store below carries a list-valued field. -/
def participantsOf (activity : Doc) : List Value :=
  match lookupS activity "participants" with
  | some (.list l) => l
  | _ => []

/-- Outcome of a mutation endpoint: the HTTP response — `Except` error
`(status, detail)` for a raised `HTTPException`, `ok message` for a 200 —
together with the activities store and the cache afterwards. -/
structure MutResult where
  resp : Except (Nat × String) String
  store : Store
  cache : Cache

/-- `signup_for_activity`: 401 without a (truthy) teacher username, 401 when
the username has no teacher record, 404 when the activity key is absent, 400
when the email is already a participant; otherwise `$push` the email, require
a non-zero modified count (500 otherwise), clear the whole cache and confirm.
`idx` stands for the module-level `_day_index` (never consulted on the
single-field identity queries used here). -/
def signup_for_activity (acts teachers : Store) (idx : DayIndex) (cache : Cache)
    (activity_name email : String) (teacher_username : Option String) : MutResult :=
  if !truthy teacher_username then
    ⟨.error (401, "Authentication required for this action"), acts, cache⟩
  else
    match find_one teachers idx [("_id", Value.str (orEmpty teacher_username))] with
    | none => ⟨.error (401, "Invalid teacher credentials"), acts, cache⟩
    | some _ =>
      match find_one acts idx [("_id", Value.str activity_name)] with
      | none => ⟨.error (404, "Activity not found"), acts, cache⟩
      | some activity =>
        if velem (Value.str email) (participantsOf activity) then
          ⟨.error (400, "Already signed up for this activity"), acts, cache⟩
        else
          let r := update_one acts idx [("_id", Value.str activity_name)]
            [("$push", Value.dict [("participants", Value.str email)])]
          if r.modified_count == 0 then
            ⟨.error (500, "Failed to update activity"), r.store, cache⟩
          else
            ⟨.ok ("Signed up " ++ email ++ " for " ++ activity_name), r.store, []⟩

/-- `unregister_from_activity`: same auth and existence checks as signup,
400 when the email is NOT currently a participant, otherwise `$pull` the
email, require a non-zero modified count (500 otherwise), clear the whole
cache and confirm. -/
def unregister_from_activity (acts teachers : Store) (idx : DayIndex) (cache : Cache)
    (activity_name email : String) (teacher_username : Option String) : MutResult :=
  if !truthy teacher_username then
    ⟨.error (401, "Authentication required for this action"), acts, cache⟩
  else
    match find_one teachers idx [("_id", Value.str (orEmpty teacher_username))] with
    | none => ⟨.error (401, "Invalid teacher credentials"), acts, cache⟩
    | some _ =>
      match find_one acts idx [("_id", Value.str activity_name)] with
      | none => ⟨.error (404, "Activity not found"), acts, cache⟩
      | some activity =>
        if !velem (Value.str email) (participantsOf activity) then
          ⟨.error (400, "Not registered for this activity"), acts, cache⟩
        else
          let r := update_one acts idx [("_id", Value.str activity_name)]
            [("$pull", Value.dict [("participants", Value.str email)])]
          if r.modified_count == 0 then
            ⟨.error (500, "Failed to update activity"), r.store, cache⟩
          else
            ⟨.ok ("Unregistered " ++ email ++ " from " ++ activity_name), r.store, []⟩

/-! ## Lemma layer: association-list dictionaries -/

@[simp] theorem vbeq_iff_eq (a b : Value) : vbeq a b = true ↔ a = b := vbeq_iff a b

@[simp] theorem velem_iff (v : Value) (l : List Value) : velem v l = true ↔ v ∈ l := by
  simp only [velem, List.any_eq_true, vbeq_iff_eq]
  constructor
  · rintro ⟨x, hx, rfl⟩
    exact hx
  · intro h
    exact ⟨v, h, rfl⟩

@[simp] theorem lookupS_nil {α : Type} (k : String) :
    lookupS ([] : List (String × α)) k = none := rfl

@[simp] theorem lookupS_cons {α : Type} (a : String × α) (t : List (String × α)) (k : String) :
    lookupS (a :: t) k = if a.1 = k then some a.2 else lookupS t k := by
  by_cases h : a.1 = k
  · simp [lookupS, List.find?_cons_of_pos, h]
  · rw [if_neg h]
    unfold lookupS
    rw [List.find?_cons_of_neg]
    simpa using h

theorem lookupS_mem {α : Type} {l : List (String × α)} {k : String} {v : α}
    (h : lookupS l k = some v) : (k, v) ∈ l := by
  induction l with
  | nil => simp at h
  | cons a t ih =>
    rcases a with ⟨k1, v1⟩
    by_cases hk : k1 = k
    · subst hk
      simp only [lookupS_cons, if_pos rfl] at h
      obtain rfl : v1 = v := by injection h
      exact List.mem_cons_self _ _
    · simp only [lookupS_cons, if_neg hk] at h
      exact List.mem_cons_of_mem _ (ih h)

theorem lookupS_eq_some_of_mem_nodup {α : Type} {l : List (String × α)} {k : String} {v : α}
    (hnd : (l.map Prod.fst).Nodup) (hm : (k, v) ∈ l) : lookupS l k = some v := by
  induction l with
  | nil => simp at hm
  | cons a t ih =>
    rcases a with ⟨k1, v1⟩
    simp only [List.map_cons, List.nodup_cons] at hnd
    rcases List.mem_cons.mp hm with h | h
    · injection h with h1 h2
      subst h1; subst h2
      simp
    · have hne : k1 ≠ k := by
        rintro rfl
        exact hnd.1 (List.mem_map.mpr ⟨(k1, v), h, rfl⟩)
      simp [hne, ih hnd.2 h]

theorem lookupS_eq_none_iff {α : Type} (l : List (String × α)) (k : String) :
    lookupS l k = none ↔ ∀ v, (k, v) ∉ l := by
  induction l with
  | nil => simp
  | cons a t ih =>
    rcases a with ⟨k1, v1⟩
    by_cases hk : k1 = k
    · subst hk
      simp only [lookupS_cons, if_pos rfl]
      constructor
      · intro h
        exact absurd h (by simp)
      · intro h
        exact absurd (List.mem_cons_self (k1, v1) t) (h v1)
    · simp only [lookupS_cons, if_neg hk, ih]
      constructor
      · intro h v
        simp only [List.mem_cons]
        rintro (he | hm)
        · exact hk (by injection he with h1 _; exact h1.symm)
        · exact h v hm
      · intro h v hm
        exact h v (List.mem_cons_of_mem _ hm)

theorem lookupS_filter_ne {α : Type} (l : List (String × α)) (k k0 : String) (h : k0 ≠ k) :
    lookupS (l.filter fun p => p.1 != k0) k = lookupS l k := by
  induction l with
  | nil => simp
  | cons a t ih =>
    rcases a with ⟨k1, v1⟩
    by_cases ha : k1 = k0
    · subst ha
      have hk : k1 ≠ k := h
      simp [List.filter_cons, hk, ih]
    · simp [List.filter_cons, ha, ih]

theorem lookupS_append {α : Type} (l1 l2 : List (String × α)) (k : String) :
    lookupS (l1 ++ l2) k = ((lookupS l1 k).orElse fun _ => lookupS l2 k) := by
  induction l1 with
  | nil => simp [Option.orElse]
  | cons a t ih =>
    by_cases h : a.1 = k <;> simp [h, ih, Option.orElse]

/-! ## Lemma layer: `insertId`, `mapEntry`, `setField` -/

theorem lookupS_insertId_id (k : String) (dv : Doc) :
    lookupS (insertId k dv) "_id" = some ((lookupS dv "_id").getD (Value.str k)) := by
  simp [insertId]

theorem lookupS_insertId_ne (k : String) (dv : Doc) (k' : String) (h : k' ≠ "_id") :
    lookupS (insertId k dv) k' = lookupS dv k' := by
  have hne : ("_id" : String) ≠ k' := fun he => h he.symm
  simp only [insertId, lookupS_cons, if_neg hne]
  exact lookupS_filter_ne dv k' "_id" (fun he => h he.symm)

theorem lookupS_mapEntry_self (s : Store) (k : String) (f : Doc → Doc) :
    lookupS (mapEntry s k f) k = (lookupS s k).map f := by
  induction s with
  | nil => simp [mapEntry]
  | cons a t ih =>
    rcases a with ⟨k1, d1⟩
    simp only [mapEntry, List.map_cons] at ih ⊢
    by_cases h : k1 = k
    · subst h
      simp
    · simp [h, ih]

theorem lookupS_mapEntry_ne (s : Store) (k : String) (f : Doc → Doc) (k' : String)
    (h : k' ≠ k) : lookupS (mapEntry s k f) k' = lookupS s k' := by
  induction s with
  | nil => simp [mapEntry]
  | cons a t ih =>
    rcases a with ⟨k1, d1⟩
    simp only [mapEntry, List.map_cons] at ih ⊢
    by_cases h1 : k1 = k
    · subst h1
      have : k1 ≠ k' := fun he => h he.symm
      simp [this, ih]
    · by_cases h2 : k1 = k' <;> simp [h1, h2, h, ih]

theorem mapEntry_map_fst (s : Store) (k : String) (f : Doc → Doc) :
    (mapEntry s k f).map Prod.fst = s.map Prod.fst := by
  induction s with
  | nil => rfl
  | cons a t ih =>
    rcases a with ⟨k1, d1⟩
    simp only [mapEntry, List.map_cons] at ih ⊢
    by_cases h : k1 = k <;> simp [h, ih]

theorem mem_mapEntry {s : Store} {k : String} {f : Doc → Doc} {p' : String × Doc}
    (h : p' ∈ mapEntry s k f) :
    ∃ p ∈ s, p' = if p.1 = k then (p.1, f p.2) else p := by
  simp only [mapEntry, List.mem_map] at h
  obtain ⟨p, hp, he⟩ := h
  exact ⟨p, hp, he.symm⟩

theorem lookupS_setField_isSome (d : Doc) (field : String) (v : Value)
    (h : (lookupS d field).isSome) : lookupS (setField d field v) field = some v := by
  induction d with
  | nil => simp at h
  | cons a t ih =>
    rcases a with ⟨k1, v1⟩
    simp only [setField, List.map_cons] at ih ⊢
    by_cases h1 : k1 = field
    · subst h1
      simp
    · simp only [lookupS_cons, if_neg h1] at h
      simp [h1, ih h]

theorem lookupS_setField_ne (d : Doc) (field : String) (v : Value) (k : String)
    (h : k ≠ field) : lookupS (setField d field v) k = lookupS d k := by
  induction d with
  | nil => simp [setField]
  | cons a t ih =>
    rcases a with ⟨k1, v1⟩
    simp only [setField, List.map_cons] at ih ⊢
    by_cases h1 : k1 = field
    · subst h1
      have : k1 ≠ k := fun he => h he.symm
      simp [this, ih]
    · by_cases h2 : k1 = k <;> simp [h1, h2, h, ih]

/-- Well-formedness of a store as a model of a Python dict of documents:
the keys are pairwise distinct and no stored document carries an `"_id"`
field of its own (the id lives in the key; `find` injects it on the way
out and the handlers pop it). -/
def StoreWF (s : Store) : Prop :=
  (s.map Prod.fst).Nodup ∧ ∀ p ∈ s, lookupS p.2 "_id" = none

/-! ## Branch characterizations of the mutation endpoints -/

/-- `True` exactly on a 500 response. -/
def is500 : Except (Nat × String) String → Bool
  | .error (500, _) => true
  | _ => false

/-- `True` exactly on a 200 response. -/
def respOk : Except (Nat × String) String → Bool
  | .ok _ => true
  | .error _ => false

theorem update_one_count (store : Store) (idx : DayIndex) (q upd : Query) :
    (update_one store idx q upd).modified_count =
      if (find_one store idx q).isSome then 1 else 0 := by
  cases h : find_one store idx q with
  | none => simp [update_one, h]
  | some doc =>
    simp only [update_one, h, Option.isSome_some, if_true]
    cases hl : lookupS doc "_id" with
    | none => rfl
    | some v => cases v <;> rfl

theorem signup_no_auth (acts teachers : Store) (idx : DayIndex) (cache : Cache)
    (n e : String) (tu : Option String) (h : truthy tu = false) :
    signup_for_activity acts teachers idx cache n e tu =
      ⟨.error (401, "Authentication required for this action"), acts, cache⟩ := by
  simp [signup_for_activity, h]

theorem signup_bad_teacher (acts teachers : Store) (idx : DayIndex) (cache : Cache)
    (n e : String) (tu : Option String) (h1 : truthy tu = true)
    (h2 : find_one teachers idx [("_id", Value.str (orEmpty tu))] = none) :
    signup_for_activity acts teachers idx cache n e tu =
      ⟨.error (401, "Invalid teacher credentials"), acts, cache⟩ := by
  simp [signup_for_activity, h1, h2]

theorem signup_no_activity (acts teachers : Store) (idx : DayIndex) (cache : Cache)
    (n e : String) (tu : Option String) (t : Doc) (h1 : truthy tu = true)
    (h2 : find_one teachers idx [("_id", Value.str (orEmpty tu))] = some t)
    (h3 : find_one acts idx [("_id", Value.str n)] = none) :
    signup_for_activity acts teachers idx cache n e tu =
      ⟨.error (404, "Activity not found"), acts, cache⟩ := by
  simp [signup_for_activity, h1, h2, h3]

theorem signup_already_registered (acts teachers : Store) (idx : DayIndex) (cache : Cache)
    (n e : String) (tu : Option String) (t activity : Doc) (h1 : truthy tu = true)
    (h2 : find_one teachers idx [("_id", Value.str (orEmpty tu))] = some t)
    (h3 : find_one acts idx [("_id", Value.str n)] = some activity)
    (h4 : velem (Value.str e) (participantsOf activity) = true) :
    signup_for_activity acts teachers idx cache n e tu =
      ⟨.error (400, "Already signed up for this activity"), acts, cache⟩ := by
  simp [signup_for_activity, h1, h2, h3, h4]

theorem signup_success (acts teachers : Store) (idx : DayIndex) (cache : Cache)
    (n e : String) (tu : Option String) (t activity : Doc) (h1 : truthy tu = true)
    (h2 : find_one teachers idx [("_id", Value.str (orEmpty tu))] = some t)
    (h3 : find_one acts idx [("_id", Value.str n)] = some activity)
    (h4 : velem (Value.str e) (participantsOf activity) = false) :
    signup_for_activity acts teachers idx cache n e tu =
      ⟨.ok ("Signed up " ++ e ++ " for " ++ n),
        (update_one acts idx [("_id", Value.str n)]
          [("$push", Value.dict [("participants", Value.str e)])]).store, []⟩ := by
  have hc : (update_one acts idx [("_id", Value.str n)]
      [("$push", Value.dict [("participants", Value.str e)])]).modified_count = 1 := by
    rw [update_one_count]
    simp [h3]
  simp [signup_for_activity, h1, h2, h3, h4, hc]

theorem unregister_no_auth (acts teachers : Store) (idx : DayIndex) (cache : Cache)
    (n e : String) (tu : Option String) (h : truthy tu = false) :
    unregister_from_activity acts teachers idx cache n e tu =
      ⟨.error (401, "Authentication required for this action"), acts, cache⟩ := by
  simp [unregister_from_activity, h]

theorem unregister_bad_teacher (acts teachers : Store) (idx : DayIndex) (cache : Cache)
    (n e : String) (tu : Option String) (h1 : truthy tu = true)
    (h2 : find_one teachers idx [("_id", Value.str (orEmpty tu))] = none) :
    unregister_from_activity acts teachers idx cache n e tu =
      ⟨.error (401, "Invalid teacher credentials"), acts, cache⟩ := by
  simp [unregister_from_activity, h1, h2]

theorem unregister_no_activity (acts teachers : Store) (idx : DayIndex) (cache : Cache)
    (n e : String) (tu : Option String) (t : Doc) (h1 : truthy tu = true)
    (h2 : find_one teachers idx [("_id", Value.str (orEmpty tu))] = some t)
    (h3 : find_one acts idx [("_id", Value.str n)] = none) :
    unregister_from_activity acts teachers idx cache n e tu =
      ⟨.error (404, "Activity not found"), acts, cache⟩ := by
  simp [unregister_from_activity, h1, h2, h3]

theorem unregister_not_registered (acts teachers : Store) (idx : DayIndex) (cache : Cache)
    (n e : String) (tu : Option String) (t activity : Doc) (h1 : truthy tu = true)
    (h2 : find_one teachers idx [("_id", Value.str (orEmpty tu))] = some t)
    (h3 : find_one acts idx [("_id", Value.str n)] = some activity)
    (h4 : velem (Value.str e) (participantsOf activity) = false) :
    unregister_from_activity acts teachers idx cache n e tu =
      ⟨.error (400, "Not registered for this activity"), acts, cache⟩ := by
  simp [unregister_from_activity, h1, h2, h3, h4]

theorem unregister_success (acts teachers : Store) (idx : DayIndex) (cache : Cache)
    (n e : String) (tu : Option String) (t activity : Doc) (h1 : truthy tu = true)
    (h2 : find_one teachers idx [("_id", Value.str (orEmpty tu))] = some t)
    (h3 : find_one acts idx [("_id", Value.str n)] = some activity)
    (h4 : velem (Value.str e) (participantsOf activity) = true) :
    unregister_from_activity acts teachers idx cache n e tu =
      ⟨.ok ("Unregistered " ++ e ++ " from " ++ n),
        (update_one acts idx [("_id", Value.str n)]
          [("$pull", Value.dict [("participants", Value.str e)])]).store, []⟩ := by
  have hc : (update_one acts idx [("_id", Value.str n)]
      [("$pull", Value.dict [("participants", Value.str e)])]).modified_count = 1 := by
    rw [update_one_count]
    simp [h3]
  simp [unregister_from_activity, h1, h2, h3, h4, hc]

theorem signup_not_500 (acts teachers : Store) (idx : DayIndex) (cache : Cache)
    (n e : String) (tu : Option String) :
    is500 (signup_for_activity acts teachers idx cache n e tu).resp = false := by
  cases h1 : truthy tu with
  | false => rw [signup_no_auth acts teachers idx cache n e tu h1]; rfl
  | true =>
    cases h2 : find_one teachers idx [("_id", Value.str (orEmpty tu))] with
    | none => rw [signup_bad_teacher acts teachers idx cache n e tu h1 h2]; rfl
    | some t =>
      cases h3 : find_one acts idx [("_id", Value.str n)] with
      | none => rw [signup_no_activity acts teachers idx cache n e tu t h1 h2 h3]; rfl
      | some activity =>
        cases h4 : velem (Value.str e) (participantsOf activity) with
        | true =>
          rw [signup_already_registered acts teachers idx cache n e tu t activity h1 h2 h3 h4]
          rfl
        | false =>
          rw [signup_success acts teachers idx cache n e tu t activity h1 h2 h3 h4]
          rfl

theorem unregister_not_500 (acts teachers : Store) (idx : DayIndex) (cache : Cache)
    (n e : String) (tu : Option String) :
    is500 (unregister_from_activity acts teachers idx cache n e tu).resp = false := by
  cases h1 : truthy tu with
  | false => rw [unregister_no_auth acts teachers idx cache n e tu h1]; rfl
  | true =>
    cases h2 : find_one teachers idx [("_id", Value.str (orEmpty tu))] with
    | none => rw [unregister_bad_teacher acts teachers idx cache n e tu h1 h2]; rfl
    | some t =>
      cases h3 : find_one acts idx [("_id", Value.str n)] with
      | none => rw [unregister_no_activity acts teachers idx cache n e tu t h1 h2 h3]; rfl
      | some activity =>
        cases h4 : velem (Value.str e) (participantsOf activity) with
        | false =>
          rw [unregister_not_registered acts teachers idx cache n e tu t activity h1 h2 h3 h4]
          rfl
        | true =>
          rw [unregister_success acts teachers idx cache n e tu t activity h1 h2 h3 h4]
          rfl

/-! ## Claim theorems -/

/-- C10: passing an empty string for any of the optional filters `day`,
`start_time`, `end_time` behaves exactly as omitting that filter: for every
store state, cache state and pagination choice, the call with the
empty-string parameter produces the same cache key and the same result
(response payload and resulting cache) as the call with the parameter unset.
Both `x or ''` in the cache key and the truthiness test `if x:` in the query
builder identify `""` with `None`. -/
theorem claim_C10_empty_filter_same_as_omitted (store : Store) (idx : DayIndex)
    (cache : Cache) (a b : Option String) (page page_size : Nat) :
    generate_cache_key (some "") a b page page_size =
      generate_cache_key none a b page page_size ∧
    generate_cache_key a (some "") b page page_size =
      generate_cache_key a none b page page_size ∧
    generate_cache_key a b (some "") page page_size =
      generate_cache_key a b none page page_size ∧
    get_activities store idx cache (some "") a b page page_size =
      get_activities store idx cache none a b page page_size ∧
    get_activities store idx cache a (some "") b page page_size =
      get_activities store idx cache a none b page page_size ∧
    get_activities store idx cache a b (some "") page page_size =
      get_activities store idx cache a b none page page_size :=
  ⟨rfl, rfl, rfl, rfl, rfl, rfl⟩

/-- C3: the InternalError (HTTP 500) branch of signup and unregister is
unreachable in sequential execution: `update_one` reports a modified count of
1 exactly when `find_one` on the same query finds a document (and 0
otherwise), so after the handler's preceding existence check the update on
the same identity query cannot report zero modifications, and neither
endpoint ever produces a 500 response. -/
theorem claim_C3_internal_error_unreachable (store : Store) (idx : DayIndex)
    (q upd : Query) (acts teachers : Store) (cache : Cache)
    (activity_name email : String) (teacher_username : Option String) :
    (update_one store idx q upd).modified_count =
      (if (find_one store idx q).isSome then 1 else 0) ∧
    is500 (signup_for_activity acts teachers idx cache
      activity_name email teacher_username).resp = false ∧
    is500 (unregister_from_activity acts teachers idx cache
      activity_name email teacher_username).resp = false :=
  ⟨update_one_count store idx q upd,
   signup_not_500 acts teachers idx cache activity_name email teacher_username,
   unregister_not_500 acts teachers idx cache activity_name email teacher_username⟩

/-- C4: every successful (200) signup or unregister call clears the entire
response cache unconditionally: immediately afterwards the cache mapping is
empty, so a list query with any parameter combination misses the cache and
recomputes from the store. -/
theorem claim_C4_success_clears_whole_cache (acts teachers : Store) (idx : DayIndex)
    (cache : Cache) (activity_name email : String) (teacher_username : Option String) :
    (respOk (signup_for_activity acts teachers idx cache
        activity_name email teacher_username).resp = true →
      (signup_for_activity acts teachers idx cache
        activity_name email teacher_username).cache = [] ∧
      ∀ (d a b : Option String) (page page_size : Nat),
        lookupS (signup_for_activity acts teachers idx cache
            activity_name email teacher_username).cache
          (generate_cache_key d a b page page_size) = none) ∧
    (respOk (unregister_from_activity acts teachers idx cache
        activity_name email teacher_username).resp = true →
      (unregister_from_activity acts teachers idx cache
        activity_name email teacher_username).cache = [] ∧
      ∀ (d a b : Option String) (page page_size : Nat),
        lookupS (unregister_from_activity acts teachers idx cache
            activity_name email teacher_username).cache
          (generate_cache_key d a b page page_size) = none) := by
  constructor
  · intro hok
    cases h1 : truthy teacher_username with
    | false =>
      rw [signup_no_auth acts teachers idx cache activity_name email teacher_username h1] at hok
      exact absurd hok (by simp [respOk])
    | true =>
      cases h2 : find_one teachers idx [("_id", Value.str (orEmpty teacher_username))] with
      | none =>
        rw [signup_bad_teacher acts teachers idx cache activity_name email
          teacher_username h1 h2] at hok
        exact absurd hok (by simp [respOk])
      | some t =>
        cases h3 : find_one acts idx [("_id", Value.str activity_name)] with
        | none =>
          rw [signup_no_activity acts teachers idx cache activity_name email
            teacher_username t h1 h2 h3] at hok
          exact absurd hok (by simp [respOk])
        | some activity =>
          cases h4 : velem (Value.str email) (participantsOf activity) with
          | true =>
            rw [signup_already_registered acts teachers idx cache activity_name email
              teacher_username t activity h1 h2 h3 h4] at hok
            exact absurd hok (by simp [respOk])
          | false =>
            rw [signup_success acts teachers idx cache activity_name email
              teacher_username t activity h1 h2 h3 h4]
            exact ⟨rfl, fun _ _ _ _ _ => rfl⟩
  · intro hok
    cases h1 : truthy teacher_username with
    | false =>
      rw [unregister_no_auth acts teachers idx cache activity_name email
        teacher_username h1] at hok
      exact absurd hok (by simp [respOk])
    | true =>
      cases h2 : find_one teachers idx [("_id", Value.str (orEmpty teacher_username))] with
      | none =>
        rw [unregister_bad_teacher acts teachers idx cache activity_name email
          teacher_username h1 h2] at hok
        exact absurd hok (by simp [respOk])
      | some t =>
        cases h3 : find_one acts idx [("_id", Value.str activity_name)] with
        | none =>
          rw [unregister_no_activity acts teachers idx cache activity_name email
            teacher_username t h1 h2 h3] at hok
          exact absurd hok (by simp [respOk])
        | some activity =>
          cases h4 : velem (Value.str email) (participantsOf activity) with
          | false =>
            rw [unregister_not_registered acts teachers idx cache activity_name email
              teacher_username t activity h1 h2 h3 h4] at hok
            exact absurd hok (by simp [respOk])
          | true =>
            rw [unregister_success acts teachers idx cache activity_name email
              teacher_username t activity h1 h2 h3 h4]
            exact ⟨rfl, fun _ _ _ _ _ => rfl⟩

/-- Concrete instantiation of C4: on a one-activity store with a seeded
teacher, a successful signup and a successful unregister both leave the
cache empty. -/
theorem claim_C4_witness :
    ((signup_for_activity [("Chess", [("participants", Value.list [Value.str "a@x.edu"])])]
        [("t", [])] [] [("k", Value.int 0)] "Chess" "new@x.edu" (some "t")).cache = [] ∧
      ∀ (d a b : Option String) (page page_size : Nat),
        lookupS (signup_for_activity [("Chess", [("participants", Value.list [Value.str "a@x.edu"])])]
            [("t", [])] [] [("k", Value.int 0)] "Chess" "new@x.edu" (some "t")).cache
          (generate_cache_key d a b page page_size) = none) ∧
    ((unregister_from_activity [("Chess", [("participants", Value.list [Value.str "a@x.edu"])])]
        [("t", [])] [] [("k", Value.int 0)] "Chess" "a@x.edu" (some "t")).cache = [] ∧
      ∀ (d a b : Option String) (page page_size : Nat),
        lookupS (unregister_from_activity [("Chess", [("participants", Value.list [Value.str "a@x.edu"])])]
            [("t", [])] [] [("k", Value.int 0)] "Chess" "a@x.edu" (some "t")).cache
          (generate_cache_key d a b page page_size) = none) :=
  ⟨(claim_C4_success_clears_whole_cache [("Chess", [("participants", Value.list [Value.str "a@x.edu"])])]
      [("t", [])] [] [("k", Value.int 0)] "Chess" "new@x.edu" (some "t")).1 (by decide),
   (claim_C4_success_clears_whole_cache [("Chess", [("participants", Value.list [Value.str "a@x.edu"])])]
      [("t", [])] [] [("k", Value.int 0)] "Chess" "a@x.edu" (some "t")).2 (by decide)⟩

/-! ## Structural lemmas about `find` and `find_one` -/

theorem mem_fullScan_iff {store : Store} {q : Query} {d : Doc} :
    d ∈ fullScan store q ↔
      ∃ p, p ∈ store ∧ matches_query (insertId p.1 p.2) q = true ∧ d = insertId p.1 p.2 := by
  simp only [fullScan, List.mem_filterMap, Option.ite_none_right_eq_some, Option.some.injEq]
  constructor
  · rintro ⟨p, hp, hm, rfl⟩
    exact ⟨p, hp, hm, rfl⟩
  · rintro ⟨p, hp, hm, rfl⟩
    exact ⟨p, hp, hm, rfl⟩

theorem fullScan_eq_nil_iff (store : Store) (q : Query) :
    fullScan store q = [] ↔ ∀ p ∈ store, matches_query (insertId p.1 p.2) q = false := by
  simp only [fullScan, List.filterMap_eq_nil_iff]
  constructor
  · intro h p hp
    have := h p hp
    by_cases hm : matches_query (insertId p.1 p.2) q = true
    · rw [if_pos hm] at this
      cases this
    · simpa using hm
  · intro h p hp
    rw [if_neg (by simp [h p hp])]

/-- Every document produced by `find` is a stored document tagged with its
key. -/
theorem mem_find {store : Store} {idx : DayIndex} {q : Query} {d : Doc}
    (h : d ∈ find store idx q) : ∃ p ∈ store, d = insertId p.1 p.2 := by
  unfold find at h
  split at h
  · obtain ⟨p, hp, rfl⟩ := List.mem_map.mp h
    exact ⟨p, hp, rfl⟩
  · split at h
    · split at h
      · split at h
        · obtain ⟨name, hname, he⟩ := List.mem_filterMap.mp h
          split at he
          · rename_i act hact
            by_cases hcond : (!act.isEmpty && matches_query (insertId name act) q) = true
            · rw [if_pos hcond] at he
              injection he with he
              exact ⟨(name, act), lookupS_mem hact, he.symm⟩
            · rw [if_neg hcond] at he
              cases he
          · cases he
        · obtain ⟨p, hp, _, rfl⟩ := mem_fullScan_iff.mp h
          exact ⟨p, hp, rfl⟩
      · obtain ⟨p, hp, _, rfl⟩ := mem_fullScan_iff.mp h
        exact ⟨p, hp, rfl⟩
      · obtain ⟨p, hp, _, rfl⟩ := mem_fullScan_iff.mp h
        exact ⟨p, hp, rfl⟩
    · obtain ⟨p, hp, _, rfl⟩ := mem_fullScan_iff.mp h
      exact ⟨p, hp, rfl⟩

/-- Every document produced by `find_one` is a stored document tagged with
its key (the store's keys being distinct). -/
theorem find_one_shape {store : Store} {idx : DayIndex} {q : Query} {doc : Doc}
    (hnd : (store.map Prod.fst).Nodup) (h : find_one store idx q = some doc) :
    ∃ k dv, lookupS store k = some dv ∧ doc = insertId k dv := by
  unfold find_one at h
  split at h
  · split at h
    · rename_i s
      cases hs : lookupS store s with
      | none => rw [hs] at h; cases h
      | some dv =>
        rw [hs] at h
        injection h with h
        exact ⟨s, dv, hs, h.symm⟩
    · cases h
  · cases hfind : find store idx q with
    | nil => rw [hfind] at h; cases h
    | cons a t =>
      rw [hfind] at h
      injection h with h
      have hmem : doc ∈ find store idx q := by
        rw [hfind, h]
        exact List.mem_cons_self doc t
      obtain ⟨p, hp, he⟩ := mem_find hmem
      exact ⟨p.1, p.2, lookupS_eq_some_of_mem_nodup hnd hp, he⟩

/-! ## Effect of `update_one` on the store -/

theorem update_one_store_push (store : Store) (idx : DayIndex) (q : Query)
    (field : String) (v : Value) (k : String) (dv : Doc)
    (hwf : StoreWF store) (hk : lookupS store k = some dv)
    (hfind : find_one store idx q = some (insertId k dv)) :
    (update_one store idx q [("$push", Value.dict [(field, v)])]).store =
      mapEntry store k (fun d => applyPush d field v) := by
  have hid : lookupS dv "_id" = none := hwf.2 (k, dv) (lookupS_mem hk)
  simp only [update_one, hfind, lookupS_insertId_id, hid, Option.getD_none]
  simp [lookupS_cons]

theorem update_one_store_pull (store : Store) (idx : DayIndex) (q : Query)
    (field : String) (v : Value) (k : String) (dv : Doc)
    (hwf : StoreWF store) (hk : lookupS store k = some dv)
    (hfind : find_one store idx q = some (insertId k dv)) :
    (update_one store idx q [("$pull", Value.dict [(field, v)])]).store =
      mapEntry store k (fun d => applyPull d field v) := by
  have hid : lookupS dv "_id" = none := hwf.2 (k, dv) (lookupS_mem hk)
  simp only [update_one, hfind, lookupS_insertId_id, hid, Option.getD_none]
  simp [lookupS_cons]

/-- C8: on a matched document, `update_one` with `$push` reports a modified
count of 1; the pushed value is appended at the end of the named list field
(whose length thereby grows by exactly 1), the field is created as a
one-element list when absent, every other field of the matched document is
unchanged, and every other document of the store is unchanged. -/
theorem claim_C8_push_appends_and_preserves (store : Store) (idx : DayIndex)
    (q : Query) (field : String) (v : Value) (doc : Doc)
    (hwf : StoreWF store) (hfind : find_one store idx q = some doc) :
    (update_one store idx q [("$push", Value.dict [(field, v)])]).modified_count = 1 ∧
    ∃ k dv, lookupS store k = some dv ∧ doc = insertId k dv ∧
      (∀ k', k' ≠ k →
        lookupS (update_one store idx q [("$push", Value.dict [(field, v)])]).store k' =
          lookupS store k') ∧
      (∀ l, lookupS dv field = some (Value.list l) →
        ∃ dv', lookupS (update_one store idx q
            [("$push", Value.dict [(field, v)])]).store k = some dv' ∧
          lookupS dv' field = some (Value.list (l ++ [v])) ∧
          (l ++ [v]).length = l.length + 1 ∧
          ∀ f', f' ≠ field → lookupS dv' f' = lookupS dv f') ∧
      (lookupS dv field = none →
        ∃ dv', lookupS (update_one store idx q
            [("$push", Value.dict [(field, v)])]).store k = some dv' ∧
          lookupS dv' field = some (Value.list [v]) ∧
          ∀ f', f' ≠ field → lookupS dv' f' = lookupS dv f') := by
  obtain ⟨k, dv, hk, rfl⟩ := find_one_shape hwf.1 hfind
  have hstore := update_one_store_push store idx q field v k dv hwf hk hfind
  refine ⟨by rw [update_one_count]; simp [hfind], k, dv, hk, rfl, ?_, ?_, ?_⟩
  · intro k' hne
    rw [hstore]
    exact lookupS_mapEntry_ne store k _ k' hne
  · intro l hl
    rw [hstore]
    refine ⟨applyPush dv field v, ?_, ?_, by simp, ?_⟩
    · rw [lookupS_mapEntry_self, hk]
      rfl
    · simp only [applyPush, hl]
      exact lookupS_setField_isSome dv field _ (by simp [hl])
    · intro f' hf'
      simp only [applyPush, hl]
      exact lookupS_setField_ne dv field _ f' hf'
  · intro hnone
    rw [hstore]
    refine ⟨applyPush dv field v, ?_, ?_, ?_⟩
    · rw [lookupS_mapEntry_self, hk]
      rfl
    · simp [applyPush, hnone, lookupS_append]
    · intro f' hf'
      simp only [applyPush, hnone]
      rw [lookupS_append]
      cases hdf : lookupS dv f' with
      | none =>
        show lookupS [(field, Value.list [v])] f' = none
        rw [lookupS_cons, if_neg (show ¬(field = f') from fun he => hf' he.symm)]
        rfl
      | some w => rfl

/-- Concrete instantiation of C8: pushing an email onto the one-activity
store appends it to the participants list and changes nothing else. -/
theorem claim_C8_witness :
    StoreWF [("Chess", [("participants", Value.list [Value.str "a@x.edu"])])] ∧
    ((update_one [("Chess", [("participants", Value.list [Value.str "a@x.edu"])])] []
        [("_id", Value.str "Chess")]
        [("$push", Value.dict [("participants", Value.str "b@x.edu")])]).modified_count = 1 ∧
      ∃ k dv,
        lookupS [("Chess", [("participants", Value.list [Value.str "a@x.edu"])])] k = some dv ∧
        insertId "Chess" [("participants", Value.list [Value.str "a@x.edu"])] = insertId k dv ∧
        (∀ k', k' ≠ k →
          lookupS (update_one [("Chess", [("participants", Value.list [Value.str "a@x.edu"])])] []
              [("_id", Value.str "Chess")]
              [("$push", Value.dict [("participants", Value.str "b@x.edu")])]).store k' =
            lookupS [("Chess", [("participants", Value.list [Value.str "a@x.edu"])])] k') ∧
        (∀ l, lookupS dv "participants" = some (Value.list l) →
          ∃ dv', lookupS (update_one [("Chess", [("participants", Value.list [Value.str "a@x.edu"])])] []
              [("_id", Value.str "Chess")]
              [("$push", Value.dict [("participants", Value.str "b@x.edu")])]).store k = some dv' ∧
            lookupS dv' "participants" = some (Value.list (l ++ [Value.str "b@x.edu"])) ∧
            (l ++ [Value.str "b@x.edu"]).length = l.length + 1 ∧
            ∀ f', f' ≠ "participants" → lookupS dv' f' = lookupS dv f') ∧
        (lookupS dv "participants" = none →
          ∃ dv', lookupS (update_one [("Chess", [("participants", Value.list [Value.str "a@x.edu"])])] []
              [("_id", Value.str "Chess")]
              [("$push", Value.dict [("participants", Value.str "b@x.edu")])]).store k = some dv' ∧
            lookupS dv' "participants" = some (Value.list [Value.str "b@x.edu"]) ∧
            ∀ f', f' ≠ "participants" → lookupS dv' f' = lookupS dv f')) :=
  ⟨⟨by decide, by decide⟩,
   claim_C8_push_appends_and_preserves
     [("Chess", [("participants", Value.list [Value.str "a@x.edu"])])] []
     [("_id", Value.str "Chess")] "participants" (Value.str "b@x.edu")
     (insertId "Chess" [("participants", Value.list [Value.str "a@x.edu"])])
     ⟨by decide, by decide⟩ (by decide)⟩

/-! ## `find_one` misses exactly the semantically unmatched queries
(day-filter-free case) -/

@[simp] theorem containsDot_id : containsDot "_id" = false := by decide

theorem vbeq_str_of_nonstr (k : String) (v : Value) (h : ∀ s, v = Value.str s → False) :
    vbeq (Value.str k) v = false := by
  cases v with
  | str s => exact absurd rfl (h s)
  | int n => rfl
  | bool b => rfl
  | list l => rfl
  | dict d => rfl

theorem velem_filter_not (v : Value) (l : List Value) :
    velem v (l.filter fun x => !(vbeq v x)) = false := by
  rw [Bool.eq_false_iff]
  intro h
  obtain ⟨x, hx, hv⟩ := List.any_eq_true.mp h
  have := List.of_mem_filter hx
  rw [hv] at this
  cases this

theorem find_eq_fullScan_of_no_days (store : Store) (idx : DayIndex) (q : Query)
    (h : lookupS q "schedule_details.days" = none) :
    find store idx q = fullScan store q := by
  cases q with
  | nil =>
    show store.map (fun p => insertId p.1 p.2) = fullScan store []
    rw [fullScan]
    have hall : ∀ p : String × Doc, matches_query (insertId p.1 p.2) [] = true := by
      intro p
      rfl
    simp only [hall, if_true]
    induction store with
    | nil => rfl
    | cons b t ih => simp [List.filterMap_cons, ih]
  | cons a t =>
    show (match lookupS (a :: t) "schedule_details.days" with
      | some (.dict df) =>
        match lookupS df "$in" with
        | some (.list (day :: _)) =>
          match lookupV idx day with
          | some names =>
            names.filterMap fun name =>
              match lookupS store name with
              | some act =>
                if !act.isEmpty && matches_query (insertId name act) (a :: t) then
                  some (insertId name act)
                else none
              | none => none
          | none => fullScan store (a :: t)
        | some (.list []) => fullScan store (a :: t)
        | _ => fullScan store (a :: t)
      | _ => fullScan store (a :: t)) = fullScan store (a :: t)
    rw [h]

theorem find_one_none_iff_no_match (store : Store) (idx : DayIndex) (q : Query)
    (hwf : StoreWF store) (hday : lookupS q "schedule_details.days" = none) :
    (find_one store idx q = none ↔
      ∀ p ∈ store, matches_query (insertId p.1 p.2) q = false) := by
  unfold find_one
  split
  · split
    · rename_i s
      constructor
      · intro h p hp
        have hs : lookupS store s = none := by
          cases hls : lookupS store s with
          | none => rfl
          | some dv => rw [hls] at h; cases h
        rcases p with ⟨k, dv⟩
        have hid : lookupS dv "_id" = none := hwf.2 (k, dv) hp
        have hks : k ≠ s := by
          rintro rfl
          rw [lookupS_eq_none_iff] at hs
          exact hs dv hp
        simp [matches_query, lookupS_insertId_id, hid, vbeq, hks]
      · intro h
        cases hls : lookupS store s with
        | none => rfl
        | some dv =>
          exfalso
          have hp := lookupS_mem hls
          have hm := h (s, dv) hp
          have hid : lookupS dv "_id" = none := hwf.2 (s, dv) hp
          simp [matches_query, lookupS_insertId_id, hid, vbeq] at hm
    · rename_i hnostr
      constructor
      · intro _ p hp
        rcases p with ⟨k, dv⟩
        have hid : lookupS dv "_id" = none := hwf.2 (k, dv) hp
        rename_i v _
        simp only [matches_query, List.all_cons, List.all_nil, Bool.and_true]
        simp only [containsDot_id, Bool.false_eq_true, if_false, lookupS_insertId_id, hid,
          Option.getD_none]
        exact vbeq_str_of_nonstr k _ fun s hs => hnostr s hs
      · intro _
        rfl
  · rw [find_eq_fullScan_of_no_days store idx q hday, List.head?_eq_none_iff]
    exact fullScan_eq_nil_iff store q

/-- C2 (amended): `update_one` with `$pull` reports modified-count 0 exactly
when `find_one` locates no document (and then leaves the store unchanged);
for queries without a `schedule_details.days` filter this coincides with no
document matching the query (for day-filtered queries the indexed lookup can
miss semantically matching documents — see the counterexample).  On the
located document the pull removes ALL occurrences of the value from the named
list field, keeping the rest in order, with modified-count 1 even when the
value was absent (the pull is then a no-op on the field); other fields and
other documents are untouched. -/
theorem claim_C2_pull_removes_all_occurrences (store : Store) (idx : DayIndex)
    (q : Query) (field : String) (v : Value) (hwf : StoreWF store) :
    ((update_one store idx q [("$pull", Value.dict [(field, v)])]).modified_count = 0 ↔
      find_one store idx q = none) ∧
    (find_one store idx q = none →
      (update_one store idx q [("$pull", Value.dict [(field, v)])]).store = store) ∧
    (lookupS q "schedule_details.days" = none →
      ((update_one store idx q [("$pull", Value.dict [(field, v)])]).modified_count = 0 ↔
        ∀ p ∈ store, matches_query (insertId p.1 p.2) q = false)) ∧
    ∀ doc, find_one store idx q = some doc →
      (update_one store idx q [("$pull", Value.dict [(field, v)])]).modified_count = 1 ∧
      ∃ k dv, lookupS store k = some dv ∧ doc = insertId k dv ∧
        (∀ k', k' ≠ k →
          lookupS (update_one store idx q [("$pull", Value.dict [(field, v)])]).store k' =
            lookupS store k') ∧
        ∀ l, lookupS dv field = some (Value.list l) →
          ∃ dv', lookupS (update_one store idx q
              [("$pull", Value.dict [(field, v)])]).store k = some dv' ∧
            lookupS dv' field = some (Value.list (l.filter fun x => !(vbeq v x))) ∧
            velem v (l.filter fun x => !(vbeq v x)) = false ∧
            (velem v l = false → l.filter (fun x => !(vbeq v x)) = l) ∧
            ∀ f', f' ≠ field → lookupS dv' f' = lookupS dv f' := by
  have hcount0 : (update_one store idx q
      [("$pull", Value.dict [(field, v)])]).modified_count = 0 ↔
      find_one store idx q = none := by
    rw [update_one_count]
    cases find_one store idx q <;> simp
  refine ⟨hcount0, ?_, ?_, ?_⟩
  · intro h
    simp [update_one, h]
  · intro hday
    exact hcount0.trans (find_one_none_iff_no_match store idx q hwf hday)
  · intro doc hdoc
    obtain ⟨k, dv, hk, rfl⟩ := find_one_shape hwf.1 hdoc
    have hstore := update_one_store_pull store idx q field v k dv hwf hk hdoc
    refine ⟨by rw [update_one_count]; simp [hdoc], k, dv, hk, rfl, ?_, ?_⟩
    · intro k' hne
      rw [hstore]
      exact lookupS_mapEntry_ne store k _ k' hne
    · intro l hl
      rw [hstore]
      refine ⟨applyPull dv field v, ?_, ?_, velem_filter_not v l,
        filter_eq_self_of_not_velem l v, ?_⟩
      · rw [lookupS_mapEntry_self, hk]
        rfl
      · simp only [applyPull, hl, removeAll_eq_filter]
        exact lookupS_setField_isSome dv field _ (by simp [hl])
      · intro f' hf'
        simp only [applyPull, hl]
        exact lookupS_setField_ne dv field _ f' hf'

/-- C2 counterexample: the claim's clause "returns modified-count 0 exactly
when no document matches the query" is false as stated.  On a store holding a
Monday activity "A" (description "y") and a Tuesday activity "B" (description
"x"), the query
`{schedule_details.days: {$in: [Monday, Tuesday]}, description: "x"}` takes
the index shortcut for Monday only, so `find_one` misses "B"; `update_one`
with `$pull` reports modified-count 0 although stored document "B" matches
the query. -/
theorem claim_C2_counterexample :
    (update_one
      [("A", [("description", Value.str "y"),
              ("schedule_details", Value.dict [("days", Value.list [Value.str "Monday"])])]),
       ("B", [("description", Value.str "x"),
              ("schedule_details", Value.dict [("days", Value.list [Value.str "Tuesday"])]),
              ("participants", Value.list [Value.str "z@x.edu"])])]
      (buildDayIndex
        [("A", [("description", Value.str "y"),
                ("schedule_details", Value.dict [("days", Value.list [Value.str "Monday"])])]),
         ("B", [("description", Value.str "x"),
                ("schedule_details", Value.dict [("days", Value.list [Value.str "Tuesday"])]),
                ("participants", Value.list [Value.str "z@x.edu"])])])
      [("schedule_details.days",
          Value.dict [("$in", Value.list [Value.str "Monday", Value.str "Tuesday"])]),
       ("description", Value.str "x")]
      [("$pull", Value.dict [("participants", Value.str "z@x.edu")])]).modified_count = 0 ∧
    matches_query
      (insertId "B" [("description", Value.str "x"),
        ("schedule_details", Value.dict [("days", Value.list [Value.str "Tuesday"])]),
        ("participants", Value.list [Value.str "z@x.edu"])])
      [("schedule_details.days",
          Value.dict [("$in", Value.list [Value.str "Monday", Value.str "Tuesday"])]),
       ("description", Value.str "x")] = true ∧
    ("B", [("description", Value.str "x"),
        ("schedule_details", Value.dict [("days", Value.list [Value.str "Tuesday"])]),
        ("participants", Value.list [Value.str "z@x.edu"])]) ∈
      [("A", [("description", Value.str "y"),
              ("schedule_details", Value.dict [("days", Value.list [Value.str "Monday"])])]),
       ("B", [("description", Value.str "x"),
              ("schedule_details", Value.dict [("days", Value.list [Value.str "Tuesday"])]),
              ("participants", Value.list [Value.str "z@x.edu"])])] := by
  refine ⟨by decide, by decide, by decide⟩

/-- Concrete instantiation of C2 (amended): pulling an email that occurs
twice in a participants list removes both occurrences with modified-count 1;
the identity query carries no day filter, so count 0 coincides with no match. -/
theorem claim_C2_witness :
    StoreWF [("Chess", [("participants",
      Value.list [Value.str "a@x.edu", Value.str "b@x.edu", Value.str "a@x.edu"])])] ∧
    (((update_one [("Chess", [("participants",
        Value.list [Value.str "a@x.edu", Value.str "b@x.edu", Value.str "a@x.edu"])])] []
        [("_id", Value.str "Chess")]
        [("$pull", Value.dict [("participants", Value.str "a@x.edu")])]).modified_count = 0 ↔
      find_one [("Chess", [("participants",
        Value.list [Value.str "a@x.edu", Value.str "b@x.edu", Value.str "a@x.edu"])])] []
        [("_id", Value.str "Chess")] = none) ∧
      (find_one [("Chess", [("participants",
          Value.list [Value.str "a@x.edu", Value.str "b@x.edu", Value.str "a@x.edu"])])] []
          [("_id", Value.str "Chess")] = none →
        (update_one [("Chess", [("participants",
            Value.list [Value.str "a@x.edu", Value.str "b@x.edu", Value.str "a@x.edu"])])] []
            [("_id", Value.str "Chess")]
            [("$pull", Value.dict [("participants", Value.str "a@x.edu")])]).store =
          [("Chess", [("participants",
            Value.list [Value.str "a@x.edu", Value.str "b@x.edu", Value.str "a@x.edu"])])]) ∧
      (lookupS [("_id", Value.str "Chess")] "schedule_details.days" = none →
        ((update_one [("Chess", [("participants",
            Value.list [Value.str "a@x.edu", Value.str "b@x.edu", Value.str "a@x.edu"])])] []
            [("_id", Value.str "Chess")]
            [("$pull", Value.dict [("participants", Value.str "a@x.edu")])]).modified_count = 0 ↔
          ∀ p ∈ [("Chess", [("participants",
              Value.list [Value.str "a@x.edu", Value.str "b@x.edu", Value.str "a@x.edu"])])],
            matches_query (insertId p.1 p.2) [("_id", Value.str "Chess")] = false)) ∧
      ∀ doc, find_one [("Chess", [("participants",
          Value.list [Value.str "a@x.edu", Value.str "b@x.edu", Value.str "a@x.edu"])])] []
          [("_id", Value.str "Chess")] = some doc →
        (update_one [("Chess", [("participants",
            Value.list [Value.str "a@x.edu", Value.str "b@x.edu", Value.str "a@x.edu"])])] []
            [("_id", Value.str "Chess")]
            [("$pull", Value.dict [("participants", Value.str "a@x.edu")])]).modified_count = 1 ∧
        ∃ k dv, lookupS [("Chess", [("participants",
            Value.list [Value.str "a@x.edu", Value.str "b@x.edu", Value.str "a@x.edu"])])]
            k = some dv ∧
          doc = insertId k dv ∧
          (∀ k', k' ≠ k →
            lookupS (update_one [("Chess", [("participants",
                Value.list [Value.str "a@x.edu", Value.str "b@x.edu", Value.str "a@x.edu"])])] []
                [("_id", Value.str "Chess")]
                [("$pull", Value.dict [("participants", Value.str "a@x.edu")])]).store k' =
              lookupS [("Chess", [("participants",
                Value.list [Value.str "a@x.edu", Value.str "b@x.edu", Value.str "a@x.edu"])])] k') ∧
          ∀ l, lookupS dv "participants" = some (Value.list l) →
            ∃ dv', lookupS (update_one [("Chess", [("participants",
                Value.list [Value.str "a@x.edu", Value.str "b@x.edu", Value.str "a@x.edu"])])] []
                [("_id", Value.str "Chess")]
                [("$pull", Value.dict [("participants", Value.str "a@x.edu")])]).store
                k = some dv' ∧
              lookupS dv' "participants" =
                some (Value.list (l.filter fun x => !(vbeq (Value.str "a@x.edu") x))) ∧
              velem (Value.str "a@x.edu")
                (l.filter fun x => !(vbeq (Value.str "a@x.edu") x)) = false ∧
              (velem (Value.str "a@x.edu") l = false →
                l.filter (fun x => !(vbeq (Value.str "a@x.edu") x)) = l) ∧
              ∀ f', f' ≠ "participants" → lookupS dv' f' = lookupS dv f') :=
  ⟨⟨by decide, by decide⟩,
   claim_C2_pull_removes_all_occurrences
     [("Chess", [("participants",
       Value.list [Value.str "a@x.edu", Value.str "b@x.edu", Value.str "a@x.edu"])])] []
     [("_id", Value.str "Chess")] "participants" (Value.str "a@x.edu")
     ⟨by decide, by decide⟩⟩

/-! ## Pagination shapes (spec side, for the response-shape claims) -/

/-- Ceiling division, from the spec's words ("total pages computed by
ceiling division"). -/
def ceilingDiv (tc ps : Nat) : Nat :=
  tc / ps + (if tc % ps = 0 then 0 else 1)

/-- Zero-based page slice: items `[(page-1)*ps : (page-1)*ps + ps]` of the
materialized result list. -/
def pageSlice (l : List (String × Doc)) (page ps : Nat) : List (String × Doc) :=
  (l.drop ((page - 1) * ps)).take ps

/-- The flat response shape: a mapping of activity name to activity fields. -/
def flatShape (paged : List (String × Doc)) : Value :=
  Value.dict (paged.map fun p => (p.1, Value.dict p.2))

/-- The envelope response shape of the spec: the page slice plus pagination
metadata (current page, page size, total count, total pages by ceiling
division, has-next, has-previous). -/
def envelopeShape (paged : List (String × Doc)) (page page_size total_count : Nat) : Value :=
  Value.dict [("activities", flatShape paged),
    ("pagination", Value.dict [
      ("page", Value.int page),
      ("page_size", Value.int page_size),
      ("total_count", Value.int total_count),
      ("total_pages", Value.int (ceilingDiv total_count page_size)),
      ("has_next", Value.bool (decide (page * page_size < total_count))),
      ("has_previous", Value.bool (decide (1 < page)))])]

/-- The handler's `(total_count + page_size - 1) // page_size` is ceiling
division. -/
theorem total_pages_eq_ceilingDiv (tc ps : Nat) (hps : 1 ≤ ps) :
    (tc + ps - 1) / ps = ceilingDiv tc ps := by
  have h0 : 0 < ps := hps
  have hqr : ps * (tc / ps) + tc % ps = tc := Nat.div_add_mod tc ps
  have hrlt : tc % ps < ps := Nat.mod_lt _ h0
  have key : ∀ a b : Nat, b < ps → (ps * a + b) / ps = a := by
    intro a b hb
    rw [Nat.mul_add_div h0, Nat.div_eq_of_lt hb, Nat.add_zero]
  by_cases hr : tc % ps = 0
  · have he : tc + ps - 1 = ps * (tc / ps) + (ps - 1) := by omega
    rw [ceilingDiv, he, key _ _ (by omega), if_pos hr]
    omega
  · have he : tc + ps - 1 = ps * (tc / ps + 1) + (tc % ps - 1) := by
      have : ps * (tc / ps + 1) = ps * (tc / ps) + ps := by ring
      omega
    rw [ceilingDiv, he, key _ _ (by omega), if_neg hr]

theorem start_plus_ps_eq_page_mul (page ps : Nat) (hpage : 1 ≤ page) :
    (page - 1) * ps + ps = page * ps := by
  cases page with
  | zero => omega
  | succ n => simp [Nat.succ_sub_one, Nat.succ_mul]

/-- C6: on a cache miss, the list-activities response is the flat mapping
exactly when `page = 1` and `page_size` is at least the total number of
matching results (the first page holds every result); in every other case it
is the envelope holding the page slice plus pagination metadata, with
total-pages computed by ceiling division, has-next exactly when
`page * page_size < total_count`, and has-previous exactly when `page > 1`. -/
theorem claim_C6_flat_iff_first_page_covers (store : Store) (idx : DayIndex)
    (cache : Cache) (day start_time end_time : Option String) (page page_size : Nat)
    (hpage : 1 ≤ page) (hps : 1 ≤ page_size)
    (hmiss : lookupS cache
      (generate_cache_key day start_time end_time page page_size) = none) :
    (get_activities store idx cache day start_time end_time page page_size).resp =
      if page = 1 ∧
          (find store idx (buildQuery day start_time end_time)).length ≤ page_size then
        flatShape (pageSlice
          ((find store idx (buildQuery day start_time end_time)).map popId) page page_size)
      else
        envelopeShape (pageSlice
          ((find store idx (buildQuery day start_time end_time)).map popId) page page_size)
          page page_size (find store idx (buildQuery day start_time end_time)).length := by
  simp only [get_activities, hmiss]
  have hlen : ((find store idx (buildQuery day start_time end_time)).map popId).length =
      (find store idx (buildQuery day start_time end_time)).length := List.length_map _ _
  by_cases hc : page = 1 ∧
      (find store idx (buildQuery day start_time end_time)).length ≤ page_size
  · rw [if_pos hc]
    have hcb : (page == 1 &&
        decide (((find store idx (buildQuery day start_time end_time)).map popId).length
          ≤ page_size)) = true := by
      simp [hc.1, hlen, hc.2]
    simp only [hcb, if_true]
    rfl
  · rw [if_neg hc]
    have hcb : (page == 1 &&
        decide (((find store idx (buildQuery day start_time end_time)).map popId).length
          ≤ page_size)) = false := by
      rcases Decidable.not_and_iff_or_not.mp hc with h | h
      · simp [h]
      · simp [hlen, h]
    simp only [hcb, Bool.false_eq_true, if_false]
    simp only [envelopeShape, flatShape, pageSlice, hlen,
      total_pages_eq_ceilingDiv _ _ hps]
    rw [start_plus_ps_eq_page_mul page page_size hpage]

/-- Concrete instantiation of C6: two matching activities, page 2 of size 1 —
the envelope shape with ceiling-division page count. -/
theorem claim_C6_witness :
    (get_activities [("A", [("description", Value.str "a")]),
        ("B", [("description", Value.str "b")])] [] [] none none none 2 1).resp =
      if (2 : Nat) = 1 ∧
          (find [("A", [("description", Value.str "a")]),
            ("B", [("description", Value.str "b")])] [] (buildQuery none none none)).length ≤ 1 then
        flatShape (pageSlice
          ((find [("A", [("description", Value.str "a")]),
            ("B", [("description", Value.str "b")])] [] (buildQuery none none none)).map popId) 2 1)
      else
        envelopeShape (pageSlice
          ((find [("A", [("description", Value.str "a")]),
            ("B", [("description", Value.str "b")])] [] (buildQuery none none none)).map popId) 2 1)
          2 1 (find [("A", [("description", Value.str "a")]),
            ("B", [("description", Value.str "b")])] [] (buildQuery none none none)).length :=
  claim_C6_flat_iff_first_page_covers
    [("A", [("description", Value.str "a")]), ("B", [("description", Value.str "b")])]
    [] [] none none none 2 1 (by decide) (by decide) rfl

/-- C7: for any filter combination whose materialized result list has exactly
5 activities, page 2 with page size 2 returns exactly the items at zero-based
offsets 2 and 3 of that list, inside the envelope with `total_pages = 3`,
`has_next = true`, `has_previous = true`. -/
theorem claim_C7_page2_size2_of_5 (store : Store) (idx : DayIndex) (cache : Cache)
    (day start_time end_time : Option String)
    (hmiss : lookupS cache (generate_cache_key day start_time end_time 2 2) = none)
    (hlen : (find store idx (buildQuery day start_time end_time)).length = 5) :
    ∃ a b : String × Doc,
      ((find store idx (buildQuery day start_time end_time)).map popId)[2]? = some a ∧
      ((find store idx (buildQuery day start_time end_time)).map popId)[3]? = some b ∧
      (get_activities store idx cache day start_time end_time 2 2).resp =
        Value.dict [("activities",
            Value.dict [(a.1, Value.dict a.2), (b.1, Value.dict b.2)]),
          ("pagination", Value.dict [
            ("page", Value.int 2), ("page_size", Value.int 2),
            ("total_count", Value.int 5), ("total_pages", Value.int 3),
            ("has_next", Value.bool true), ("has_previous", Value.bool true)])] := by
  have hlen' : ((find store idx (buildQuery day start_time end_time)).map popId).length = 5 := by
    rw [List.length_map]
    exact hlen
  have h2 : 2 < ((find store idx (buildQuery day start_time end_time)).map popId).length := by
    omega
  have h3 : 3 < ((find store idx (buildQuery day start_time end_time)).map popId).length := by
    omega
  refine ⟨((find store idx (buildQuery day start_time end_time)).map popId)[2],
    ((find store idx (buildQuery day start_time end_time)).map popId)[3],
    List.getElem?_eq_getElem h2, List.getElem?_eq_getElem h3, ?_⟩
  have hdrop2 : ((find store idx (buildQuery day start_time end_time)).map popId).drop 2 =
      ((find store idx (buildQuery day start_time end_time)).map popId)[2] ::
        ((find store idx (buildQuery day start_time end_time)).map popId).drop 3 :=
    List.drop_eq_getElem_cons h2
  have hdrop3 : ((find store idx (buildQuery day start_time end_time)).map popId).drop 3 =
      ((find store idx (buildQuery day start_time end_time)).map popId)[3] ::
        ((find store idx (buildQuery day start_time end_time)).map popId).drop 4 :=
    List.drop_eq_getElem_cons h3
  simp only [get_activities, hmiss]
  have hidx : ((2 : Nat) - 1) * 2 = 2 := rfl
  have hcond : (((2 : Nat) == 1) &&
      decide (((find store idx (buildQuery day start_time end_time)).map popId).length ≤ 2))
      = false := by
    simp
  simp only [hidx, hcond, Bool.false_eq_true, if_false]
  rw [hdrop2, hdrop3]
  simp only [List.take_succ_cons, List.take_zero, hlen', List.map_cons, List.map_nil]
  norm_num

/-- Concrete instantiation of C7 on a five-activity store. -/
theorem claim_C7_witness :
    ∃ a b : String × Doc,
      ((find [("A1", [("description", Value.str "1")]), ("A2", [("description", Value.str "2")]),
          ("A3", [("description", Value.str "3")]), ("A4", [("description", Value.str "4")]),
          ("A5", [("description", Value.str "5")])] [] (buildQuery none none none)).map popId)[2]?
        = some a ∧
      ((find [("A1", [("description", Value.str "1")]), ("A2", [("description", Value.str "2")]),
          ("A3", [("description", Value.str "3")]), ("A4", [("description", Value.str "4")]),
          ("A5", [("description", Value.str "5")])] [] (buildQuery none none none)).map popId)[3]?
        = some b ∧
      (get_activities [("A1", [("description", Value.str "1")]), ("A2", [("description", Value.str "2")]),
          ("A3", [("description", Value.str "3")]), ("A4", [("description", Value.str "4")]),
          ("A5", [("description", Value.str "5")])] [] [] none none none 2 2).resp =
        Value.dict [("activities",
            Value.dict [(a.1, Value.dict a.2), (b.1, Value.dict b.2)]),
          ("pagination", Value.dict [
            ("page", Value.int 2), ("page_size", Value.int 2),
            ("total_count", Value.int 5), ("total_pages", Value.int 3),
            ("has_next", Value.bool true), ("has_previous", Value.bool true)])] :=
  claim_C7_page2_size2_of_5
    [("A1", [("description", Value.str "1")]), ("A2", [("description", Value.str "2")]),
     ("A3", [("description", Value.str "3")]), ("A4", [("description", Value.str "4")]),
     ("A5", [("description", Value.str "5")])] [] [] none none none rfl (by decide)

theorem participantsOf_insertId (k : String) (v : Doc) :
    participantsOf (insertId k v) = participantsOf v := by
  unfold participantsOf
  rw [lookupS_insertId_ne k v "participants" (by decide)]

theorem find_one_id_singleton (store : Store) (idx : DayIndex) (n : String) :
    find_one store idx [("_id", Value.str n)] = (lookupS store n).map (insertId n) := rfl

/-- C5: signup and unregister check their failure conditions in this order
and return the corresponding error, leaving store and cache untouched:
401 when the teacher username is missing (falsy), 401 when no teacher record
has that username (the teacher document's contents — in particular any
password — are never inspected), 404 when the activity key does not exist,
400 when the email is already a participant (signup) resp. not a participant
(unregister); otherwise the participant list is mutated accordingly, the
whole cache is cleared and a confirmation message is returned. -/
theorem claim_C5_error_checks_in_order (acts teachers : Store) (idx : DayIndex)
    (cache : Cache) (n e : String) (tu : Option String) (hwf : StoreWF acts) :
    (truthy tu = false →
      signup_for_activity acts teachers idx cache n e tu =
        ⟨.error (401, "Authentication required for this action"), acts, cache⟩ ∧
      unregister_from_activity acts teachers idx cache n e tu =
        ⟨.error (401, "Authentication required for this action"), acts, cache⟩) ∧
    (truthy tu = true →
      find_one teachers idx [("_id", Value.str (orEmpty tu))] = none →
      signup_for_activity acts teachers idx cache n e tu =
        ⟨.error (401, "Invalid teacher credentials"), acts, cache⟩ ∧
      unregister_from_activity acts teachers idx cache n e tu =
        ⟨.error (401, "Invalid teacher credentials"), acts, cache⟩) ∧
    (∀ t, truthy tu = true →
      find_one teachers idx [("_id", Value.str (orEmpty tu))] = some t →
      find_one acts idx [("_id", Value.str n)] = none →
      signup_for_activity acts teachers idx cache n e tu =
        ⟨.error (404, "Activity not found"), acts, cache⟩ ∧
      unregister_from_activity acts teachers idx cache n e tu =
        ⟨.error (404, "Activity not found"), acts, cache⟩) ∧
    (∀ t activity, truthy tu = true →
      find_one teachers idx [("_id", Value.str (orEmpty tu))] = some t →
      find_one acts idx [("_id", Value.str n)] = some activity →
      (velem (Value.str e) (participantsOf activity) = true →
        signup_for_activity acts teachers idx cache n e tu =
          ⟨.error (400, "Already signed up for this activity"), acts, cache⟩) ∧
      (velem (Value.str e) (participantsOf activity) = false →
        unregister_from_activity acts teachers idx cache n e tu =
          ⟨.error (400, "Not registered for this activity"), acts, cache⟩)) ∧
    (∀ t v l, truthy tu = true →
      find_one teachers idx [("_id", Value.str (orEmpty tu))] = some t →
      lookupS acts n = some v →
      lookupS v "participants" = some (Value.list l) →
      velem (Value.str e) l = false →
      (signup_for_activity acts teachers idx cache n e tu).resp =
        .ok ("Signed up " ++ e ++ " for " ++ n) ∧
      (signup_for_activity acts teachers idx cache n e tu).cache = [] ∧
      (∀ k', k' ≠ n →
        lookupS (signup_for_activity acts teachers idx cache n e tu).store k' =
          lookupS acts k') ∧
      ∃ dv', lookupS (signup_for_activity acts teachers idx cache n e tu).store n = some dv' ∧
        lookupS dv' "participants" = some (Value.list (l ++ [Value.str e])) ∧
        ∀ f', f' ≠ "participants" → lookupS dv' f' = lookupS v f') ∧
    (∀ t v l, truthy tu = true →
      find_one teachers idx [("_id", Value.str (orEmpty tu))] = some t →
      lookupS acts n = some v →
      lookupS v "participants" = some (Value.list l) →
      velem (Value.str e) l = true →
      (unregister_from_activity acts teachers idx cache n e tu).resp =
        .ok ("Unregistered " ++ e ++ " from " ++ n) ∧
      (unregister_from_activity acts teachers idx cache n e tu).cache = [] ∧
      (∀ k', k' ≠ n →
        lookupS (unregister_from_activity acts teachers idx cache n e tu).store k' =
          lookupS acts k') ∧
      ∃ dv', lookupS (unregister_from_activity acts teachers idx cache n e tu).store n
          = some dv' ∧
        lookupS dv' "participants" =
          some (Value.list (l.filter fun x => !(vbeq (Value.str e) x))) ∧
        ∀ f', f' ≠ "participants" → lookupS dv' f' = lookupS v f') := by
  refine ⟨?_, ?_, ?_, ?_, ?_, ?_⟩
  · intro h1
    exact ⟨signup_no_auth acts teachers idx cache n e tu h1,
      unregister_no_auth acts teachers idx cache n e tu h1⟩
  · intro h1 h2
    exact ⟨signup_bad_teacher acts teachers idx cache n e tu h1 h2,
      unregister_bad_teacher acts teachers idx cache n e tu h1 h2⟩
  · intro t h1 h2 h3
    exact ⟨signup_no_activity acts teachers idx cache n e tu t h1 h2 h3,
      unregister_no_activity acts teachers idx cache n e tu t h1 h2 h3⟩
  · intro t activity h1 h2 h3
    exact ⟨fun h4 =>
        signup_already_registered acts teachers idx cache n e tu t activity h1 h2 h3 h4,
      fun h4 =>
        unregister_not_registered acts teachers idx cache n e tu t activity h1 h2 h3 h4⟩
  · intro t v l h1 h2 hv hl hvel
    have hfo : find_one acts idx [("_id", Value.str n)] = some (insertId n v) := by
      rw [find_one_id_singleton, hv]
      rfl
    have h4 : velem (Value.str e) (participantsOf (insertId n v)) = false := by
      rw [participantsOf_insertId]
      unfold participantsOf
      rw [hl]
      exact hvel
    rw [signup_success acts teachers idx cache n e tu t (insertId n v) h1 h2 hfo h4]
    have hstore := update_one_store_push acts idx [("_id", Value.str n)]
      "participants" (Value.str e) n v hwf hv hfo
    refine ⟨rfl, rfl, ?_, ?_⟩
    · intro k' hne
      show lookupS (update_one acts idx [("_id", Value.str n)]
        [("$push", Value.dict [("participants", Value.str e)])]).store k' = lookupS acts k'
      rw [hstore]
      exact lookupS_mapEntry_ne acts n _ k' hne
    · refine ⟨applyPush v "participants" (Value.str e), ?_, ?_, ?_⟩
      · show lookupS (update_one acts idx [("_id", Value.str n)]
          [("$push", Value.dict [("participants", Value.str e)])]).store n = _
        rw [hstore, lookupS_mapEntry_self, hv]
        rfl
      · simp only [applyPush, hl]
        exact lookupS_setField_isSome v "participants" _ (by simp [hl])
      · intro f' hf'
        simp only [applyPush, hl]
        exact lookupS_setField_ne v "participants" _ f' hf'
  · intro t v l h1 h2 hv hl hvel
    have hfo : find_one acts idx [("_id", Value.str n)] = some (insertId n v) := by
      rw [find_one_id_singleton, hv]
      rfl
    have h4 : velem (Value.str e) (participantsOf (insertId n v)) = true := by
      rw [participantsOf_insertId]
      unfold participantsOf
      rw [hl]
      exact hvel
    rw [unregister_success acts teachers idx cache n e tu t (insertId n v) h1 h2 hfo h4]
    have hstore := update_one_store_pull acts idx [("_id", Value.str n)]
      "participants" (Value.str e) n v hwf hv hfo
    refine ⟨rfl, rfl, ?_, ?_⟩
    · intro k' hne
      show lookupS (update_one acts idx [("_id", Value.str n)]
        [("$pull", Value.dict [("participants", Value.str e)])]).store k' = lookupS acts k'
      rw [hstore]
      exact lookupS_mapEntry_ne acts n _ k' hne
    · refine ⟨applyPull v "participants" (Value.str e), ?_, ?_, ?_⟩
      · show lookupS (update_one acts idx [("_id", Value.str n)]
          [("$pull", Value.dict [("participants", Value.str e)])]).store n = _
        rw [hstore, lookupS_mapEntry_self, hv]
        rfl
      · simp only [applyPull, hl, removeAll_eq_filter]
        exact lookupS_setField_isSome v "participants" _ (by simp [hl])
      · intro f' hf'
        simp only [applyPull, hl]
        exact lookupS_setField_ne v "participants" _ f' hf'

/-- Concrete instantiation of C5 (success path of signup): a valid teacher,
an existing activity and a fresh email give a 200, clear the cache and append
the email to the participants list. -/
theorem claim_C5_witness :
    (signup_for_activity [("Chess", [("participants", Value.list [Value.str "a@x.edu"])])]
        [("t", [("password", Value.str "h")])] [] [("k", Value.int 0)]
        "Chess" "new@x.edu" (some "t")).resp =
      .ok ("Signed up " ++ "new@x.edu" ++ " for " ++ "Chess") ∧
    (signup_for_activity [("Chess", [("participants", Value.list [Value.str "a@x.edu"])])]
        [("t", [("password", Value.str "h")])] [] [("k", Value.int 0)]
        "Chess" "new@x.edu" (some "t")).cache = [] ∧
    (∀ k', k' ≠ "Chess" →
      lookupS (signup_for_activity [("Chess", [("participants", Value.list [Value.str "a@x.edu"])])]
          [("t", [("password", Value.str "h")])] [] [("k", Value.int 0)]
          "Chess" "new@x.edu" (some "t")).store k' =
        lookupS [("Chess", [("participants", Value.list [Value.str "a@x.edu"])])] k') ∧
    ∃ dv', lookupS (signup_for_activity
        [("Chess", [("participants", Value.list [Value.str "a@x.edu"])])]
        [("t", [("password", Value.str "h")])] [] [("k", Value.int 0)]
        "Chess" "new@x.edu" (some "t")).store "Chess" = some dv' ∧
      lookupS dv' "participants" =
        some (Value.list ([Value.str "a@x.edu"] ++ [Value.str "new@x.edu"])) ∧
      ∀ f', f' ≠ "participants" →
        lookupS dv' f' = lookupS [("participants", Value.list [Value.str "a@x.edu"])] f' :=
  (claim_C5_error_checks_in_order
      [("Chess", [("participants", Value.list [Value.str "a@x.edu"])])]
      [("t", [("password", Value.str "h")])] [] [("k", Value.int 0)]
      "Chess" "new@x.edu" (some "t") ⟨by decide, by decide⟩).2.2.2.2.1
    (insertId "t" [("password", Value.str "h")])
    [("participants", Value.list [Value.str "a@x.edu"])]
    [Value.str "a@x.edu"] rfl rfl rfl rfl (by decide)

/-! ## C9: uniqueness of participant emails under operation sequences -/

/-- Per-activity invariant: each list-valued `participants` field holds no
duplicate emails. -/
def UniqueParticipants (s : Store) : Prop :=
  ∀ p ∈ s, ∀ l, lookupS p.2 "participants" = some (Value.list l) → l.Nodup

/-- One HTTP mutation call, successful or failing. -/
inductive OpCall where
  | signup (activity_name email : String) (teacher_username : Option String)
  | unregister (activity_name email : String) (teacher_username : Option String)

/-- Effect of one call on the activities store and the cache (the teachers
store is never mutated by these endpoints). -/
def applyOp (teachers : Store) (idx : DayIndex) (st : Store × Cache) : OpCall → Store × Cache
  | .signup n e tu =>
    ((signup_for_activity st.1 teachers idx st.2 n e tu).store,
     (signup_for_activity st.1 teachers idx st.2 n e tu).cache)
  | .unregister n e tu =>
    ((unregister_from_activity st.1 teachers idx st.2 n e tu).store,
     (unregister_from_activity st.1 teachers idx st.2 n e tu).cache)

/-- Sequential execution of a list of calls. -/
def execOps (teachers : Store) (idx : DayIndex) (ops : List OpCall)
    (st : Store × Cache) : Store × Cache :=
  ops.foldl (applyOp teachers idx) st

theorem applyPush_lookup_ne (d : Doc) (field : String) (x : Value) (f' : String)
    (h : f' ≠ field) : lookupS (applyPush d field x) f' = lookupS d f' := by
  unfold applyPush
  cases hd : lookupS d field with
  | none =>
    rw [lookupS_append]
    cases hdf : lookupS d f' with
    | none =>
      show lookupS [(field, Value.list [x])] f' = none
      rw [lookupS_cons, if_neg (show ¬(field = f') from fun he => h he.symm)]
      rfl
    | some w => rfl
  | some w =>
    cases w with
    | list l => exact lookupS_setField_ne d field _ f' h
    | str s => rfl
    | int n => rfl
    | bool b => rfl
    | dict m => rfl

theorem applyPull_lookup_ne (d : Doc) (field : String) (x : Value) (f' : String)
    (h : f' ≠ field) : lookupS (applyPull d field x) f' = lookupS d f' := by
  unfold applyPull
  cases hd : lookupS d field with
  | none => rfl
  | some w =>
    cases w with
    | list l => exact lookupS_setField_ne d field _ f' h
    | str s => rfl
    | int n => rfl
    | bool b => rfl
    | dict m => rfl

theorem push_entry_preserves (acts : Store) (n e : String) (v : Doc)
    (hwf : StoreWF acts) (hu : UniqueParticipants acts)
    (hv : lookupS acts n = some v)
    (hnotin : velem (Value.str e) (participantsOf v) = false) :
    StoreWF (mapEntry acts n (fun d => applyPush d "participants" (Value.str e))) ∧
    UniqueParticipants
      (mapEntry acts n (fun d => applyPush d "participants" (Value.str e))) := by
  refine ⟨⟨by rw [mapEntry_map_fst]; exact hwf.1, ?_⟩, ?_⟩
  · intro p' hp'
    obtain ⟨p, hp, he⟩ := mem_mapEntry hp'
    by_cases hk : p.1 = n
    · rw [if_pos hk] at he
      rw [he]
      exact (applyPush_lookup_ne p.2 "participants" (Value.str e) "_id" (by decide)).trans
        (hwf.2 p hp)
    · rw [if_neg hk] at he
      rw [he]
      exact hwf.2 p hp
  · intro p' hp' l' hl'
    obtain ⟨p, hp, he⟩ := mem_mapEntry hp'
    by_cases hk : p.1 = n
    · rw [if_pos hk] at he
      rw [he] at hl'
      have hmem : (n, p.2) ∈ acts := by
        rw [← hk]
        exact hp
      have hpv : p.2 = v := by
        have h1 := lookupS_eq_some_of_mem_nodup hwf.1 hmem
        rw [hv] at h1
        injection h1 with h1
        exact h1.symm
      simp only at hl'
      rw [hpv] at hl'
      cases hlv : lookupS v "participants" with
      | none =>
        rw [applyPush, hlv, lookupS_append, hlv] at hl'
        simp only [lookupS_cons, if_pos rfl, Option.orElse] at hl'
        injection hl' with hl'
        injection hl' with hl'
        rw [← hl']
        exact List.nodup_singleton _
      | some w =>
        cases w with
        | list l0 =>
          rw [applyPush, hlv] at hl'
          rw [lookupS_setField_isSome v "participants" _ (by simp [hlv])] at hl'
          injection hl' with hl'
          injection hl' with hl'
          have hl0 : l0.Nodup := hu (n, v) (hpv ▸ hmem) l0 hlv
          have hne : Value.str e ∉ l0 := by
            intro hin
            have : velem (Value.str e) l0 = true := velem_iff _ _ |>.mpr hin
            rw [participantsOf, hlv] at hnotin
            rw [this] at hnotin
            cases hnotin
          rw [← hl']
          simp [List.nodup_append, hl0, hne]
        | str s =>
          rw [applyPush, hlv, hlv] at hl'
          injection hl' with hl'
          cases hl'
        | int n0 =>
          rw [applyPush, hlv, hlv] at hl'
          injection hl' with hl'
          cases hl'
        | bool b =>
          rw [applyPush, hlv, hlv] at hl'
          injection hl' with hl'
          cases hl'
        | dict m =>
          rw [applyPush, hlv, hlv] at hl'
          injection hl' with hl'
          cases hl'
    · rw [if_neg hk] at he
      rw [he] at hl'
      exact hu p hp l' hl'

theorem pull_entry_preserves (acts : Store) (n e : String)
    (hwf : StoreWF acts) (hu : UniqueParticipants acts) :
    StoreWF (mapEntry acts n (fun d => applyPull d "participants" (Value.str e))) ∧
    UniqueParticipants
      (mapEntry acts n (fun d => applyPull d "participants" (Value.str e))) := by
  refine ⟨⟨by rw [mapEntry_map_fst]; exact hwf.1, ?_⟩, ?_⟩
  · intro p' hp'
    obtain ⟨p, hp, he⟩ := mem_mapEntry hp'
    by_cases hk : p.1 = n
    · rw [if_pos hk] at he
      rw [he]
      exact (applyPull_lookup_ne p.2 "participants" (Value.str e) "_id" (by decide)).trans
        (hwf.2 p hp)
    · rw [if_neg hk] at he
      rw [he]
      exact hwf.2 p hp
  · intro p' hp' l' hl'
    obtain ⟨p, hp, he⟩ := mem_mapEntry hp'
    by_cases hk : p.1 = n
    · rw [if_pos hk] at he
      rw [he] at hl'
      simp only at hl'
      cases hlv : lookupS p.2 "participants" with
      | none =>
        rw [applyPull, hlv, hlv] at hl'
        cases hl'
      | some w =>
        cases w with
        | list l0 =>
          rw [applyPull, hlv] at hl'
          rw [lookupS_setField_isSome p.2 "participants" _ (by simp [hlv])] at hl'
          injection hl' with hl'
          injection hl' with hl'
          have hl0 : l0.Nodup := hu p hp l0 hlv
          rw [← hl', removeAll_eq_filter]
          exact hl0.filter _
        | str s =>
          rw [applyPull, hlv, hlv] at hl'
          injection hl' with hl'
          cases hl'
        | int n0 =>
          rw [applyPull, hlv, hlv] at hl'
          injection hl' with hl'
          cases hl'
        | bool b =>
          rw [applyPull, hlv, hlv] at hl'
          injection hl' with hl'
          cases hl'
        | dict m =>
          rw [applyPull, hlv, hlv] at hl'
          injection hl' with hl'
          cases hl'
    · rw [if_neg hk] at he
      rw [he] at hl'
      exact hu p hp l' hl'

theorem signup_preserves (acts teachers : Store) (idx : DayIndex) (cache : Cache)
    (n e : String) (tu : Option String)
    (hwf : StoreWF acts) (hu : UniqueParticipants acts) :
    StoreWF (signup_for_activity acts teachers idx cache n e tu).store ∧
    UniqueParticipants (signup_for_activity acts teachers idx cache n e tu).store := by
  cases h1 : truthy tu with
  | false => rw [signup_no_auth acts teachers idx cache n e tu h1]; exact ⟨hwf, hu⟩
  | true =>
    cases h2 : find_one teachers idx [("_id", Value.str (orEmpty tu))] with
    | none => rw [signup_bad_teacher acts teachers idx cache n e tu h1 h2]; exact ⟨hwf, hu⟩
    | some t =>
      cases hv : lookupS acts n with
      | none =>
        have h3 : find_one acts idx [("_id", Value.str n)] = none := by
          rw [find_one_id_singleton, hv]
          rfl
        rw [signup_no_activity acts teachers idx cache n e tu t h1 h2 h3]
        exact ⟨hwf, hu⟩
      | some v =>
        have h3 : find_one acts idx [("_id", Value.str n)] = some (insertId n v) := by
          rw [find_one_id_singleton, hv]
          rfl
        cases h4 : velem (Value.str e) (participantsOf (insertId n v)) with
        | true =>
          rw [signup_already_registered acts teachers idx cache n e tu t
            (insertId n v) h1 h2 h3 h4]
          exact ⟨hwf, hu⟩
        | false =>
          rw [signup_success acts teachers idx cache n e tu t (insertId n v) h1 h2 h3 h4]
          show StoreWF (update_one acts idx [("_id", Value.str n)]
              [("$push", Value.dict [("participants", Value.str e)])]).store ∧ _
          rw [update_one_store_push acts idx [("_id", Value.str n)]
            "participants" (Value.str e) n v hwf hv h3]
          exact push_entry_preserves acts n e v hwf hu hv
            ((participantsOf_insertId n v) ▸ h4)

theorem unregister_preserves (acts teachers : Store) (idx : DayIndex) (cache : Cache)
    (n e : String) (tu : Option String)
    (hwf : StoreWF acts) (hu : UniqueParticipants acts) :
    StoreWF (unregister_from_activity acts teachers idx cache n e tu).store ∧
    UniqueParticipants (unregister_from_activity acts teachers idx cache n e tu).store := by
  cases h1 : truthy tu with
  | false => rw [unregister_no_auth acts teachers idx cache n e tu h1]; exact ⟨hwf, hu⟩
  | true =>
    cases h2 : find_one teachers idx [("_id", Value.str (orEmpty tu))] with
    | none => rw [unregister_bad_teacher acts teachers idx cache n e tu h1 h2]; exact ⟨hwf, hu⟩
    | some t =>
      cases hv : lookupS acts n with
      | none =>
        have h3 : find_one acts idx [("_id", Value.str n)] = none := by
          rw [find_one_id_singleton, hv]
          rfl
        rw [unregister_no_activity acts teachers idx cache n e tu t h1 h2 h3]
        exact ⟨hwf, hu⟩
      | some v =>
        have h3 : find_one acts idx [("_id", Value.str n)] = some (insertId n v) := by
          rw [find_one_id_singleton, hv]
          rfl
        cases h4 : velem (Value.str e) (participantsOf (insertId n v)) with
        | false =>
          rw [unregister_not_registered acts teachers idx cache n e tu t
            (insertId n v) h1 h2 h3 h4]
          exact ⟨hwf, hu⟩
        | true =>
          rw [unregister_success acts teachers idx cache n e tu t (insertId n v) h1 h2 h3 h4]
          show StoreWF (update_one acts idx [("_id", Value.str n)]
              [("$pull", Value.dict [("participants", Value.str e)])]).store ∧ _
          rw [update_one_store_pull acts idx [("_id", Value.str n)]
            "participants" (Value.str e) n v hwf hv h3]
          exact pull_entry_preserves acts n e hwf hu

/-- C9: starting from a well-formed store whose activities all have
duplicate-free participant lists, any sequence of signup and unregister
calls — successful or failing — executed sequentially leaves every
activity's participants list free of duplicate emails (signup rejects an
already-present email with 400 before pushing; a pull only removes
elements). -/
theorem claim_C9_participants_stay_unique (teachers : Store) (idx : DayIndex)
    (ops : List OpCall) (acts : Store) (cache : Cache)
    (hwf : StoreWF acts) (hu : UniqueParticipants acts) :
    StoreWF (execOps teachers idx ops (acts, cache)).1 ∧
    UniqueParticipants (execOps teachers idx ops (acts, cache)).1 := by
  induction ops generalizing acts cache with
  | nil => exact ⟨hwf, hu⟩
  | cons op rest ih =>
    show StoreWF (execOps teachers idx rest (applyOp teachers idx (acts, cache) op)).1 ∧ _
    cases op with
    | signup n e tu =>
      have h := signup_preserves acts teachers idx cache n e tu hwf hu
      exact ih _ _ h.1 h.2
    | unregister n e tu =>
      have h := unregister_preserves acts teachers idx cache n e tu hwf hu
      exact ih _ _ h.1 h.2

/-- Executable check sufficient for `UniqueParticipants` on a concrete store. -/
theorem uniqueParticipants_of_checker (s : Store)
    (h : (s.all fun p =>
      match lookupS p.2 "participants" with
      | some (Value.list l) => decide l.Nodup
      | _ => true) = true) : UniqueParticipants s := by
  intro p hp l hl
  have hc := List.all_eq_true.mp h p hp
  rw [hl] at hc
  exact of_decide_eq_true hc

/-- Concrete instantiation of C9: a mixed sequence of successful and failing
calls on a seeded store keeps the invariant. -/
theorem claim_C9_witness :
    StoreWF (execOps [("t", [])] []
      [OpCall.signup "Chess" "b@x.edu" (some "t"),
       OpCall.signup "Chess" "b@x.edu" (some "t"),
       OpCall.unregister "Chess" "a@x.edu" (some "t"),
       OpCall.signup "Nope" "c@x.edu" (some "t"),
       OpCall.unregister "Chess" "zz@x.edu" none]
      ([("Chess", [("participants", Value.list [Value.str "a@x.edu"])])], [])).1 ∧
    UniqueParticipants (execOps [("t", [])] []
      [OpCall.signup "Chess" "b@x.edu" (some "t"),
       OpCall.signup "Chess" "b@x.edu" (some "t"),
       OpCall.unregister "Chess" "a@x.edu" (some "t"),
       OpCall.signup "Nope" "c@x.edu" (some "t"),
       OpCall.unregister "Chess" "zz@x.edu" none]
      ([("Chess", [("participants", Value.list [Value.str "a@x.edu"])])], [])).1 :=
  claim_C9_participants_stay_unique [("t", [])] []
    [OpCall.signup "Chess" "b@x.edu" (some "t"),
     OpCall.signup "Chess" "b@x.edu" (some "t"),
     OpCall.unregister "Chess" "a@x.edu" (some "t"),
     OpCall.signup "Nope" "c@x.edu" (some "t"),
     OpCall.unregister "Chess" "zz@x.edu" none]
    [("Chess", [("participants", Value.list [Value.str "a@x.edu"])])] []
    ⟨by decide, by decide⟩ (uniqueParticipants_of_checker _ (by decide))

/-! ## C1: the day-index shortcut versus the full scan -/

/-- The `_id` values of a result list. -/
def resultKeys (docs : List Doc) : List Value :=
  docs.filterMap fun d => lookupS d "_id"

/-- Equality of two key lists as sets (mutual membership). -/
def keysSetEq (a b : List Value) : Bool :=
  (a.all fun x => velem x b) && (b.all fun x => velem x a)

theorem keysSetEq_of_mem_iff {a b : List Value} (h : ∀ x, x ∈ a ↔ x ∈ b) :
    keysSetEq a b = true := by
  simp only [keysSetEq, Bool.and_eq_true, List.all_eq_true, velem_iff]
  exact ⟨fun x hx => (h x).mp hx, fun x hx => (h x).mpr hx⟩

theorem mem_resultKeys {x : Value} {L : List Doc} :
    x ∈ resultKeys L ↔ ∃ d ∈ L, lookupS d "_id" = some x := by
  simp [resultKeys, List.mem_filterMap]

@[simp] theorem lookupV_nil {α : Type} (k : Value) :
    lookupV ([] : List (Value × α)) k = none := rfl

@[simp] theorem lookupV_cons {α : Type} (a : Value × α) (t : List (Value × α)) (k : Value) :
    lookupV (a :: t) k = if a.1 = k then some a.2 else lookupV t k := by
  unfold lookupV
  rw [List.find?_cons]
  by_cases h : a.1 = k
  · rw [if_pos h, show vbeq a.1 k = true from (vbeq_iff _ _).mpr h]
    rfl
  · have hb : vbeq a.1 k = false := by
      rw [Bool.eq_false_iff]
      intro hc
      exact h ((vbeq_iff _ _).mp hc)
    rw [if_neg h, hb]

theorem lookupV_append {α : Type} (l1 l2 : List (Value × α)) (k : Value) :
    lookupV (l1 ++ l2) k = ((lookupV l1 k).orElse fun _ => lookupV l2 k) := by
  induction l1 with
  | nil => simp [Option.orElse]
  | cons a t ih =>
    by_cases h : a.1 = k <;> simp [h, ih, Option.orElse]

/-- The entry list of the day index under a day key. -/
def idxLook (idx : DayIndex) (d : Value) : List String :=
  (lookupV idx d).getD []

theorem lookupV_mapAppend_self (idx : DayIndex) (d : Value) (n : String) :
    lookupV (idx.map fun p => if p.1 = d then (p.1, p.2 ++ [n]) else p) d =
      (lookupV idx d).map (· ++ [n]) := by
  induction idx with
  | nil => simp
  | cons a t ih =>
    rcases a with ⟨k1, v1⟩
    by_cases h : k1 = d
    · subst h
      simp
    · simp [h, ih]

theorem lookupV_mapAppend_ne (idx : DayIndex) (d d' : Value) (n : String) (h : d' ≠ d) :
    lookupV (idx.map fun p => if p.1 = d then (p.1, p.2 ++ [n]) else p) d' =
      lookupV idx d' := by
  induction idx with
  | nil => simp
  | cons a t ih =>
    rcases a with ⟨k1, v1⟩
    by_cases h1 : k1 = d
    · subst h1
      have : k1 ≠ d' := fun he => h he.symm
      simp [this, ih]
    · by_cases h2 : k1 = d' <;> simp [h1, h2, h, ih]

theorem idxLook_indexInsert_self (idx : DayIndex) (d : Value) (n : String) :
    idxLook (indexInsert idx d n) d = idxLook idx d ++ [n] := by
  unfold indexInsert idxLook
  by_cases hs : (lookupV idx d).isSome
  · rw [if_pos hs, lookupV_mapAppend_self]
    cases hl : lookupV idx d with
    | none => rw [hl] at hs; cases hs
    | some l => simp
  · rw [if_neg hs, lookupV_append]
    cases hl : lookupV idx d with
    | none => simp
    | some l => rw [hl] at hs; simp at hs

theorem idxLook_indexInsert_ne (idx : DayIndex) (d d' : Value) (n : String)
    (h : d' ≠ d) : idxLook (indexInsert idx d n) d' = idxLook idx d' := by
  unfold indexInsert idxLook
  by_cases hs : (lookupV idx d).isSome
  · rw [if_pos hs, lookupV_mapAppend_ne idx d d' n h]
  · rw [if_neg hs, lookupV_append]
    cases hl : lookupV idx d' with
    | none =>
      have h2 : d ≠ d' := fun he => h he.symm
      simp [h2]
    | some l => simp

theorem idxLook_foldl_insert (days : List Value) (n : String) (d : Value) (m : String) :
    ∀ idx : DayIndex,
      (m ∈ idxLook (days.foldl (fun j x => indexInsert j x n) idx) d ↔
        m ∈ idxLook idx d ∨ (d ∈ days ∧ m = n)) := by
  induction days with
  | nil => simp
  | cons x rest ih =>
    intro idx
    rw [List.foldl_cons, ih]
    by_cases hxd : d = x
    · subst hxd
      rw [idxLook_indexInsert_self]
      simp only [List.mem_append, List.mem_singleton, List.mem_cons]
      tauto
    · rw [idxLook_indexInsert_ne idx x d n hxd]
      simp only [List.mem_cons]
      tauto

theorem idxLook_buildDayIndex (store : Store) (d : Value) (m : String) :
    m ∈ idxLook (buildDayIndex store) d ↔
      ∃ act, (m, act) ∈ store ∧ d ∈ getDays act := by
  suffices h : ∀ idx : DayIndex,
      m ∈ idxLook (store.foldl
        (fun j p => (getDays p.2).foldl (fun j2 x => indexInsert j2 x p.1) j) idx) d ↔
      m ∈ idxLook idx d ∨ ∃ act, (m, act) ∈ store ∧ d ∈ getDays act by
    have h0 := h []
    rw [buildDayIndex, h0]
    simp [idxLook]
  induction store with
  | nil => simp
  | cons p rest ih =>
    intro idx
    rw [List.foldl_cons, ih, idxLook_foldl_insert]
    constructor
    · rintro ((h | ⟨hd, rfl⟩) | ⟨act, hm, hd⟩)
      · exact Or.inl h
      · exact Or.inr ⟨p.2, List.mem_cons_self _ _, hd⟩
      · exact Or.inr ⟨act, List.mem_cons_of_mem _ hm, hd⟩
    · rintro (h | ⟨act, hm, hd⟩)
      · exact Or.inl (Or.inl h)
      · rcases List.mem_cons.mp hm with he | hm2
        · have h1 : p.1 = m := by rw [← he]
          have h2 : p.2 = act := by rw [← he]
          refine Or.inl (Or.inr ⟨?_, h1.symm⟩)
          rw [h2]
          exact hd
        · exact Or.inr ⟨act, hm2, hd⟩

theorem getPath_days (k : String) (dv : Doc) (w : Value)
    (h : getPath (Value.dict (insertId k dv)) ["schedule_details", "days"] = some w) :
    ∃ sd, lookupS dv "schedule_details" = some (Value.dict sd) ∧
      lookupS sd "days" = some w := by
  have h1 : lookupS (insertId k dv) "schedule_details" = lookupS dv "schedule_details" :=
    lookupS_insertId_ne k dv _ (by decide)
  have h0 : (match lookupS (insertId k dv) "schedule_details" with
      | some w2 => getPath w2 ["days"]
      | none => none) = some w := h
  rw [h1] at h0
  cases hsd : lookupS dv "schedule_details" with
  | none =>
    simp only [hsd] at h0
    exact Option.noConfusion h0
  | some v =>
    simp only [hsd] at h0
    cases v with
    | dict sd =>
      have h2 : (match lookupS sd "days" with
          | some w2 => getPath w2 []
          | none => none) = some w := h0
      cases hd : lookupS sd "days" with
      | none =>
        simp only [hd] at h2
        exact Option.noConfusion h2
      | some v2 =>
        simp only [hd] at h2
        have h3 : some v2 = some w := h2
        injection h3 with h3
        exact ⟨sd, rfl, h3 ▸ hd⟩
    | str s => exact Option.noConfusion (show (none : Option Value) = some w from h0)
    | int n => exact Option.noConfusion (show (none : Option Value) = some w from h0)
    | bool b => exact Option.noConfusion (show (none : Option Value) = some w from h0)
    | list l => exact Option.noConfusion (show (none : Option Value) = some w from h0)

theorem matchOp_dict (current : Value) (d : List (String × Value)) :
    matchOp current (Value.dict d) =
      (match lookupS d "$in" with
       | some w =>
         match current, w with
         | .list cur, .list items => items.any fun it => velem it cur
         | _, _ => false
       | none =>
         match lookupS d "$gte" with
         | some w => !(vlt current w)
         | none =>
           match lookupS d "$lte" with
           | some w => !(vlt w current)
           | none => true) := rfl

theorem matches_day_extract (k : String) (dv : Doc) (q : Query)
    (df : List (String × Value)) (items : List Value)
    (hq : lookupS q "schedule_details.days" = some (Value.dict df))
    (hin : lookupS df "$in" = some (Value.list items))
    (hm : matches_query (insertId k dv) q = true) :
    items.any (fun it => velem it (getDays dv)) = true := by
  have hentry := lookupS_mem hq
  have hpred := List.all_eq_true.mp hm _ hentry
  simp only at hpred
  rw [if_pos (show containsDot "schedule_details.days" = true by decide)] at hpred
  rw [show splitOnDot "schedule_details.days" = ["schedule_details", "days"] by decide]
    at hpred
  cases hp : getPath (Value.dict (insertId k dv)) ["schedule_details", "days"] with
  | none =>
    simp only [hp] at hpred
    exact Bool.noConfusion hpred
  | some current =>
    simp only [hp] at hpred
    rw [matchOp_dict, hin] at hpred
    cases current with
    | list cur =>
      obtain ⟨sd, hsd, hdays⟩ := getPath_days k dv (Value.list cur) hp
      have hgd : getDays dv = cur := by
        simp only [getDays, hsd, hdays]
      have hpred2 : items.any (fun it => velem it cur) = true := hpred
      rw [hgd]
      exact hpred2
    | str s => exact Bool.noConfusion (show false = true from hpred)
    | int n => exact Bool.noConfusion (show false = true from hpred)
    | bool b => exact Bool.noConfusion (show false = true from hpred)
    | dict m => exact Bool.noConfusion (show false = true from hpred)

theorem find_cons (store : Store) (idx : DayIndex) (qh : String × Value) (qt : Query) :
    find store idx (qh :: qt) =
      (match lookupS (qh :: qt) "schedule_details.days" with
      | some (.dict df) =>
        match lookupS df "$in" with
        | some (.list (day :: _)) =>
          match lookupV idx day with
          | some names =>
            names.filterMap fun name =>
              match lookupS store name with
              | some act =>
                if !act.isEmpty && matches_query (insertId name act) (qh :: qt) then
                  some (insertId name act)
                else none
              | none => none
          | none => fullScan store (qh :: qt)
        | some (.list []) => fullScan store (qh :: qt)
        | _ => fullScan store (qh :: qt)
      | _ => fullScan store (qh :: qt)) := rfl

theorem find_day_indexed (store : Store) (idx : DayIndex) (qh : String × Value)
    (qt : Query) (df : List (String × Value)) (day : Value) (rest : List Value)
    (names : List String)
    (hq : lookupS (qh :: qt) "schedule_details.days" = some (Value.dict df))
    (hin : lookupS df "$in" = some (Value.list (day :: rest)))
    (hidx : lookupV idx day = some names) :
    find store idx (qh :: qt) = names.filterMap fun name =>
      match lookupS store name with
      | some act =>
        if !act.isEmpty && matches_query (insertId name act) (qh :: qt) then
          some (insertId name act)
        else none
      | none => none := by
  rw [find_cons]
  simp only [hq, hin, hidx]

theorem find_day_noidx (store : Store) (idx : DayIndex) (qh : String × Value)
    (qt : Query) (df : List (String × Value)) (day : Value) (rest : List Value)
    (hq : lookupS (qh :: qt) "schedule_details.days" = some (Value.dict df))
    (hin : lookupS df "$in" = some (Value.list (day :: rest)))
    (hidx : lookupV idx day = none) :
    find store idx (qh :: qt) = fullScan store (qh :: qt) := by
  rw [find_cons]
  simp only [hq, hin, hidx]

/-- C1 (amended): when the day filter's `$in` list holds a single value, the
result of `find` — whether or not the day-index shortcut is taken, the index
being the one built from the store — equals, as a set of `_id` keys, the
result of the full scan.  (With several `$in` values the shortcut consults
the index only for the first one and can drop documents — see the
counterexample.) -/
theorem claim_C1_single_day_index_refines_fullscan (store : Store) (q : Query)
    (df : List (String × Value)) (day : Value)
    (hnd : (store.map Prod.fst).Nodup)
    (hq : lookupS q "schedule_details.days" = some (Value.dict df))
    (hin : lookupS df "$in" = some (Value.list [day])) :
    keysSetEq (resultKeys (find store (buildDayIndex store) q))
      (resultKeys (fullScan store q)) = true := by
  apply keysSetEq_of_mem_iff
  intro x
  cases q with
  | nil => simp at hq
  | cons qh qt =>
    cases hidx : lookupV (buildDayIndex store) day with
    | none =>
      rw [find_day_noidx store _ qh qt df day [] hq hin hidx]
    | some names =>
      rw [find_day_indexed store _ qh qt df day [] names hq hin hidx]
      constructor
      · intro hx
        obtain ⟨d, hd, hid⟩ := mem_resultKeys.mp hx
        obtain ⟨name, hname, he⟩ := List.mem_filterMap.mp hd
        cases hact : lookupS store name with
        | none => rw [hact] at he; cases he
        | some act =>
          rw [hact] at he
          have he2 : (if !act.isEmpty && matches_query (insertId name act) (qh :: qt) then
              some (insertId name act) else (none : Option Doc)) = some d := he
          by_cases hc : (!act.isEmpty && matches_query (insertId name act) (qh :: qt)) = true
          · rw [if_pos hc] at he2
            injection he2 with he2
            apply mem_resultKeys.mpr
            refine ⟨d, ?_, hid⟩
            apply mem_fullScan_iff.mpr
            exact ⟨(name, act), lookupS_mem hact, (Bool.and_eq_true _ _ |>.mp hc).2, he2.symm⟩
          · rw [if_neg hc] at he2
            cases he2
      · intro hx
        obtain ⟨d, hd, hid⟩ := mem_resultKeys.mp hx
        obtain ⟨p, hp, hmq, hde⟩ := mem_fullScan_iff.mp hd
        have hany := matches_day_extract p.1 p.2 (qh :: qt) df [day] hq hin hmq
        have hday : day ∈ getDays p.2 := by
          simp only [List.any_cons, List.any_nil, Bool.or_false] at hany
          exact (velem_iff _ _).mp hany
        have hmemn : p.1 ∈ names := by
          have hm2 := (idxLook_buildDayIndex store day p.1).mpr ⟨p.2, hp, hday⟩
          rw [idxLook, hidx] at hm2
          simpa using hm2
        have hlk : lookupS store p.1 = some p.2 :=
          lookupS_eq_some_of_mem_nodup hnd hp
        have hne : p.2.isEmpty = false := by
          cases hp2 : p.2 with
          | nil =>
            rw [hp2] at hday
            simp [getDays] at hday
          | cons a t => rfl
        apply mem_resultKeys.mpr
        refine ⟨d, ?_, hid⟩
        apply List.mem_filterMap.mpr
        refine ⟨p.1, hmemn, ?_⟩
        show (match lookupS store p.1 with
          | some act =>
            if !act.isEmpty && matches_query (insertId p.1 act) (qh :: qt) then
              some (insertId p.1 act)
            else none
          | none => none) = some d
        rw [hlk]
        show (if !p.2.isEmpty && matches_query (insertId p.1 p.2) (qh :: qt) then
            some (insertId p.1 p.2) else (none : Option Doc)) = some d
        rw [if_pos (show (!p.2.isEmpty && matches_query (insertId p.1 p.2) (qh :: qt)) = true
          by simp [hne, hmq])]
        rw [hde]

/-- C1 counterexample: with two `$in` values the indexed branch consults the
index only for the first day.  On a store with a Monday activity "A" and a
Tuesday activity "B", the query `{$in: [Monday, Tuesday]}` on
`schedule_details.days` returns only "A" through `find` while the full scan
also returns "B": the key sets differ. -/
theorem claim_C1_counterexample :
    velem (Value.str "B") (resultKeys (fullScan
      [("A", [("schedule_details", Value.dict [("days", Value.list [Value.str "Monday"])])]),
       ("B", [("schedule_details", Value.dict [("days", Value.list [Value.str "Tuesday"])])])]
      [("schedule_details.days",
        Value.dict [("$in", Value.list [Value.str "Monday", Value.str "Tuesday"])])])) = true ∧
    velem (Value.str "B") (resultKeys (find
      [("A", [("schedule_details", Value.dict [("days", Value.list [Value.str "Monday"])])]),
       ("B", [("schedule_details", Value.dict [("days", Value.list [Value.str "Tuesday"])])])]
      (buildDayIndex
        [("A", [("schedule_details", Value.dict [("days", Value.list [Value.str "Monday"])])]),
         ("B", [("schedule_details", Value.dict [("days", Value.list [Value.str "Tuesday"])])])])
      [("schedule_details.days",
        Value.dict [("$in", Value.list [Value.str "Monday", Value.str "Tuesday"])])])) = false ∧
    keysSetEq
      (resultKeys (find
        [("A", [("schedule_details", Value.dict [("days", Value.list [Value.str "Monday"])])]),
         ("B", [("schedule_details", Value.dict [("days", Value.list [Value.str "Tuesday"])])])]
        (buildDayIndex
          [("A", [("schedule_details", Value.dict [("days", Value.list [Value.str "Monday"])])]),
           ("B", [("schedule_details", Value.dict [("days", Value.list [Value.str "Tuesday"])])])])
        [("schedule_details.days",
          Value.dict [("$in", Value.list [Value.str "Monday", Value.str "Tuesday"])])]))
      (resultKeys (fullScan
        [("A", [("schedule_details", Value.dict [("days", Value.list [Value.str "Monday"])])]),
         ("B", [("schedule_details", Value.dict [("days", Value.list [Value.str "Tuesday"])])])]
        [("schedule_details.days",
          Value.dict [("$in", Value.list [Value.str "Monday", Value.str "Tuesday"])])]))
      = false := by
  refine ⟨by decide, by decide, by decide⟩

/-- Concrete instantiation of C1 (amended) on a single-day query. -/
theorem claim_C1_witness :
    keysSetEq
      (resultKeys (find
        [("A", [("schedule_details", Value.dict [("days", Value.list [Value.str "Monday"])])]),
         ("B", [("schedule_details", Value.dict [("days", Value.list [Value.str "Tuesday"])])])]
        (buildDayIndex
          [("A", [("schedule_details", Value.dict [("days", Value.list [Value.str "Monday"])])]),
           ("B", [("schedule_details", Value.dict [("days", Value.list [Value.str "Tuesday"])])])])
        [("schedule_details.days",
          Value.dict [("$in", Value.list [Value.str "Monday"])])]))
      (resultKeys (fullScan
        [("A", [("schedule_details", Value.dict [("days", Value.list [Value.str "Monday"])])]),
         ("B", [("schedule_details", Value.dict [("days", Value.list [Value.str "Tuesday"])])])]
        [("schedule_details.days",
          Value.dict [("$in", Value.list [Value.str "Monday"])])]))
      = true :=
  claim_C1_single_day_index_refines_fullscan
    [("A", [("schedule_details", Value.dict [("days", Value.list [Value.str "Monday"])])]),
     ("B", [("schedule_details", Value.dict [("days", Value.list [Value.str "Tuesday"])])])]
    [("schedule_details.days", Value.dict [("$in", Value.list [Value.str "Monday"])])]
    [("$in", Value.list [Value.str "Monday"])] (Value.str "Monday")
    (by decide) rfl rfl
